import Mathlib

/-!
# Verification of `resume_importer.py`

A shallow embedding of the extraction pipeline of `ResumeImporter`
(`src/resume_importer.py`) together with theorems settling the frozen claims
about its specification.

The Python code is regex-driven.  We embed the handful of regular expressions
it uses through a small executable matcher (`Pat` / `mrun`) whose semantics
follow Python's `re` module for exactly the constructs that occur in the
source: ordered alternation, greedy and lazy bounded character-class
repetition, case-insensitive literals, capture groups, positive lookahead,
word boundaries, `^` (with and without `MULTILINE`), `$` and `\Z`.
`re.search` / `re.finditer` / `re.findall` / `re.split` / `re.sub` are
implemented on top of it with Python's leftmost, priority-ordered,
non-overlapping semantics.
-/

set_option maxRecDepth 4000

/-- ASCII upper-case letter, Python's `[A-Z]`. -/
def isUpperAZ (c : Char) : Bool := 'A' ≤ c && c ≤ 'Z'

/-- ASCII lower-case letter, Python's `[a-z]` (no `IGNORECASE`). -/
def isLowerAZ (c : Char) : Bool := 'a' ≤ c && c ≤ 'z'

/-- ASCII letter, Python's `[a-z]` under `re.IGNORECASE` (or `[A-Za-z]`). -/
def isAsciiLetter (c : Char) : Bool := isUpperAZ c || isLowerAZ c

/-- ASCII digit, Python's `\d`. -/
def isDigitCh (c : Char) : Bool := '0' ≤ c && c ≤ '9'

/-- Python's `\s` restricted to ASCII: space, tab, newline, CR, VT, FF. -/
def isPySpace (c : Char) : Bool :=
  c == ' ' || c == '\t' || c == '\n' || c == '\x0d' || c == '\x0b' || c == '\x0c'

/-- Python's `\w` restricted to ASCII: letters, digits and underscore. -/
def isWordCh (c : Char) : Bool := isAsciiLetter c || isDigitCh c || c == '_'

/-- Case-insensitive character comparison (ASCII, as in `re.IGNORECASE`). -/
def eqCI (a b : Char) : Bool := a.toLower == b.toLower

/-- Case-insensitive prefix test on character lists. -/
def isPrefixCI : List Char → List Char → Bool
  | [], _ => true
  | _ :: _, [] => false
  | a :: as, b :: bs => eqCI a b && isPrefixCI as bs

/-- `cap, cap-1, …` with `n` elements (the greedy enumeration order of a
bounded repetition). -/
def countdown (cap : Nat) : Nat → List Nat
  | 0 => []
  | n + 1 => cap :: countdown (cap - 1) n

/-- `lo, lo+1, …` with `n` elements (the lazy enumeration order). -/
def countup (lo : Nat) : Nat → List Nat
  | 0 => []
  | n + 1 => lo :: countup (lo + 1) n

/-- Python's `str.strip()`: remove leading and trailing whitespace. -/
def pyStripList (s : List Char) : List Char :=
  ((s.dropWhile isPySpace).reverse.dropWhile isPySpace).reverse

/-- Python's `str.strip()` on `String`. -/
def pyStrip (s : String) : String := String.mk (pyStripList s.data)

/-- Python's `str.split(sep)` for a one-character separator. -/
def splitOnChar (sep : Char) : List Char → List (List Char)
  | [] => [[]]
  | c :: rest =>
    if c == sep then [] :: splitOnChar sep rest
    else
      match splitOnChar sep rest with
      | [] => [[c]]
      | p :: ps => (c :: p) :: ps

/-- Python's `in` operator on strings: `needle` occurs inside `hay`. -/
def isSubstring (needle : List Char) : List Char → Bool
  | [] => needle.isEmpty
  | c :: rest => needle.isPrefixOf (c :: rest) || isSubstring needle rest

/-- Substring test on `String`s (Python `needle in hay`). -/
def strContains (hay needle : String) : Bool := isSubstring needle.data hay.data

/-- ASCII `str.upper()`. -/
def pyUpper (s : String) : String := String.mk (s.data.map Char.toUpper)

/-- ASCII `str.lower()`. -/
def pyLower (s : String) : String := String.mk (s.data.map Char.toLower)

/-- Capture bindings produced by a match: group number ↦ matched text. -/
abbrev Caps := List (Nat × List Char)

/-- Patterns: the fragment of Python `re` syntax used by `resume_importer.py`.
`cls f lo hi? greedy` is a character-class repetition `[…]{lo,hi}` (`hi = none`
for an open bound) with greedy or lazy preference. -/
inductive Pat : Type where
  | lit : List Char → Pat
  | litI : List Char → Pat
  | cls : (Char → Bool) → Nat → Option Nat → Bool → Pat
  | eps : Pat
  | seq : Pat → Pat → Pat
  | alt : Pat → Pat → Pat
  | grp : Nat → Pat → Pat
  | look : Pat → Pat
  | wb : Pat
  | bos : Pat
  | bolM : Pat
  | dollar : Pat
  | eosP : Pat

/-- Right-nested sequencing of a pattern list. -/
def pseq : List Pat → Pat
  | [] => .eps
  | [p] => p
  | p :: rest => .seq p (pseq rest)

/-- Ordered alternation of a pattern list (first alternative preferred). -/
def palt : List Pat → Pat
  | [] => .lit ['\x00']
  | [p] => p
  | p :: rest => .alt p (palt rest)

/-- `p?` (greedy optional). -/
def popt (p : Pat) : Pat := .alt p .eps

/-- The character preceding the rest of the input after consuming `cons`,
given the character that preceded the whole input. -/
def lastCh (cons : List Char) (prev : Option Char) : Option Char :=
  match cons.getLast? with
  | some c => some c
  | none => prev

/-- Word-character test on an optional character (`none` behaves as a
non-word character, e.g. at the ends of the input). -/
def isWordOpt : Option Char → Bool
  | some c => isWordCh c
  | none => false

/-- The largest repetition count a class `[…]{lo,hi}` can consume from `s`:
the length of the satisfying prefix, clipped by the upper bound. -/
def clsCap (f : Char → Bool) (hi : Option Nat) (s : List Char) : Nat :=
  match hi with
  | some h => Nat.min (s.takeWhile f).length h
  | none => (s.takeWhile f).length

/-- All ways a pattern can match a prefix of `s`, in Python `re` preference
order.  Each result is `(captures, consumed, rest)` with
`s = consumed ++ rest`.  `prev` is the character immediately before `s` in
the overall subject (`none` at the start of the subject). -/
def mrun : Pat → Option Char → List Char → List (Caps × List Char × List Char)
  | .lit l, _, s => if l.isPrefixOf s then [([], l, s.drop l.length)] else []
  | .litI l, _, s =>
      if isPrefixCI l s then [([], s.take l.length, s.drop l.length)] else []
  | .cls f lo hi g, _, s =>
      if lo ≤ clsCap f hi s then
        (if g then countdown (clsCap f hi s) (clsCap f hi s + 1 - lo)
         else countup lo (clsCap f hi s + 1 - lo)).map
          (fun k => ([], s.take k, s.drop k))
      else []
  | .eps, _, s => [([], [], s)]
  | .seq p q, prev, s =>
      (mrun p prev s).flatMap (fun r1 =>
        (mrun q (lastCh r1.2.1 prev) r1.2.2).map (fun r2 =>
          (r1.1 ++ r2.1, r1.2.1 ++ r2.2.1, r2.2.2)))
  | .alt p q, prev, s => mrun p prev s ++ mrun q prev s
  | .grp i p, prev, s =>
      (mrun p prev s).map (fun r => ((i, r.2.1) :: r.1, r.2.1, r.2.2))
  | .look p, prev, s => if (mrun p prev s).isEmpty then [] else [([], [], s)]
  | .wb, prev, s =>
      if isWordOpt prev != isWordOpt s.head? then [([], [], s)] else []
  | .bos, prev, s => if prev.isNone then [([], [], s)] else []
  | .bolM, prev, s =>
      if prev.isNone || prev == some '\n' then [([], [], s)] else []
  | .dollar, _, s => if s.isEmpty || s == ['\n'] then [([], [], s)] else []
  | .eosP, _, s => if s.isEmpty then [([], [], s)] else []

/-- Look up a capture group (Python `match.group(i)`). -/
def getCap (caps : Caps) (i : Nat) : Option (List Char) :=
  (caps.find? (fun c => c.1 == i)).map (·.2)

/-- Character before position `i` of `text` (`none` at position 0). -/
def prevAt (text : List Char) (i : Nat) : Option Char :=
  if i = 0 then none else text.get? (i - 1)

/-- Attempt a match anchored at position `i` of `text`; returns the captures
and the end position of the preferred match (Python `re` tries a position
and keeps the first, highest-priority match). -/
def tryMatch (p : Pat) (text : List Char) (i : Nat) : Option (Caps × Nat) :=
  match (mrun p (prevAt text i) (text.drop i)).head? with
  | some r => some (r.1, i + r.2.1.length)
  | none => none

/-- `re.search` scanning from position `i` with step-count fuel; returns
`(start, captures, end)` of the leftmost match. -/
def reSearchAux (p : Pat) (text : List Char) : Nat → Nat → Option (Nat × Caps × Nat)
  | _, 0 => none
  | i, fuel + 1 =>
    if text.length < i then none
    else
      match tryMatch p text i with
      | some (caps, e) => some (i, caps, e)
      | none => reSearchAux p text (i + 1) fuel

/-- Python `re.search`. -/
def reSearch (p : Pat) (text : List Char) : Option (Nat × Caps × Nat) :=
  reSearchAux p text 0 (text.length + 1)

/-- Python `re.match` (anchored at position 0). -/
def reMatchStart (p : Pat) (text : List Char) : Option (Caps × Nat) :=
  tryMatch p text 0

/-- `re.finditer` (non-overlapping leftmost matches), with fuel. -/
def finditerAux (p : Pat) (text : List Char) : Nat → Nat → List (Nat × Caps × Nat)
  | _, 0 => []
  | i, fuel + 1 =>
    match reSearchAux p text i (text.length + 1 - i) with
    | none => []
    | some (s, caps, e) =>
      (s, caps, e) :: finditerAux p text (if s < e then e else e + 1) fuel

/-- Python `re.finditer`. -/
def finditer (p : Pat) (text : List Char) : List (Nat × Caps × Nat) :=
  finditerAux p text 0 (text.length + 1)

/-- The slice `text[a:b]` (Python slicing with `0 ≤ a ≤ b`). -/
def pySlice (text : List Char) (a b : Nat) : List Char := (text.drop a).take (b - a)

/-- Python `re.findall` for a pattern with exactly one capture group. -/
def findallGrp1 (p : Pat) (text : List Char) : List (List Char) :=
  (finditer p text).map (fun m => (getCap m.2.1 1).getD [])

/-- Python `re.findall` for a pattern with no capture group (whole matches). -/
def findallWhole (p : Pat) (text : List Char) : List (List Char) :=
  (finditer p text).map (fun m => pySlice text m.1 m.2.2)

/-- Python `re.findall` for a pattern with exactly two capture groups
(unmatched optional groups give `''`). -/
def findallGrp2 (p : Pat) (text : List Char) : List (List Char × List Char) :=
  (finditer p text).map (fun m => ((getCap m.2.1 1).getD [], (getCap m.2.1 2).getD []))

/-- Pieces of `text` between the matches `ms` (for `re.split`). -/
def reSplitAux (text : List Char) : List (Nat × Caps × Nat) → Nat → List (List Char)
  | [], pos => [text.drop pos]
  | m :: rest, pos => pySlice text pos m.1 :: reSplitAux text rest m.2.2

/-- Python `re.split`. -/
def reSplit (p : Pat) (text : List Char) : List (List Char) :=
  reSplitAux text (finditer p text) 0

/-- A replacement template: literal pieces and group back-references. -/
abbrev Tmpl := List (Sum Nat (List Char))

/-- Instantiate a replacement template with the captures of a match. -/
def applyTmpl (tmpl : Tmpl) (caps : Caps) : List Char :=
  tmpl.flatMap (fun it =>
    match it with
    | .inl i => (getCap caps i).getD []
    | .inr l => l)

/-- `re.sub` body: copy unmatched characters, replace matches, with fuel. -/
def reSubAux (p : Pat) (tmpl : Tmpl) (text : List Char) : Nat → Nat → List Char
  | _, 0 => []
  | i, fuel + 1 =>
    if text.length ≤ i then []
    else
      match tryMatch p text i with
      | some (caps, e) =>
        if i < e then applyTmpl tmpl caps ++ reSubAux p tmpl text e fuel
        else
          applyTmpl tmpl caps ++ (text.get? i).elim [] (fun c => [c]) ++
            reSubAux p tmpl text (i + 1) fuel
      | none => (text.get? i).elim [] (fun c => [c]) ++ reSubAux p tmpl text (i + 1) fuel

/-- Python `re.sub`. -/
def reSub (p : Pat) (tmpl : Tmpl) (text : List Char) : List Char :=
  reSubAux p tmpl text 0 (text.length + 1)

/-! ## Data model

The canonical résumé record (`_create_empty_template`, lines 34–65).  The
Python record is a JSON-like dict; the extraction pipeline only ever
overwrites `basics` scalars or appends to the top-level sequences, so we
embed it as a structure together with a faithful JSON view (`JValue`,
`Record.toJValue`) on which the generic dict-walking functions
(`_count_populated_fields`, `_calculate_confidence`, `load_from_json`)
operate exactly as in the source. -/

structure ProfileEntry where
  network : String
  url : String
  username : String
deriving DecidableEq

structure LocationInfo where
  address : String
  postalCode : String
  city : String
  countryCode : String
  region : String
deriving DecidableEq

structure BasicsInfo where
  name : String
  label : String
  image : String
  email : String
  phone : String
  url : String
  summary : String
  location : LocationInfo
  profiles : List ProfileEntry
deriving DecidableEq

structure WorkEntry where
  name : String
  position : String
  startDate : String
  endDate : String
  summary : String
  highlights : List String
  url : String
  keywords : List String
deriving DecidableEq

structure EducationEntry where
  institution : String
  area : String
  studyType : String
  startDate : String
  endDate : String
  score : String
  courses : List String
deriving DecidableEq

structure SkillEntry where
  name : String
  level : String
  keywords : List String
deriving DecidableEq

structure LanguageEntry where
  language : String
  fluency : String
deriving DecidableEq

structure CertificateEntry where
  name : String
  date : String
  issuer : String
  url : String
  keywords : List String
deriving DecidableEq

structure ProjectEntry where
  name : String
  description : String
  startDate : String
  endDate : String
  url : String
  highlights : List String
  keywords : List String
deriving DecidableEq

/-- JSON-like values: the shape of `self.resume_data` as a Python dict. -/
inductive JValue : Type where
  | str : String → JValue
  | list : List JValue → JValue
  | obj : List (String × JValue) → JValue

/-- The résumé record.  The sequences `volunteer`, `awards`, `publications`,
`interests` and `references` are initialized empty and never appended to by
any extractor, so their element type is irrelevant; we keep them as generic
JSON values. -/
structure Record where
  basics : BasicsInfo
  work : List WorkEntry
  volunteer : List JValue
  education : List EducationEntry
  awards : List JValue
  certificates : List CertificateEntry
  publications : List JValue
  skills : List SkillEntry
  languages : List LanguageEntry
  interests : List JValue
  references : List JValue
  projects : List ProjectEntry

/-- `_create_empty_template` (lines 34–65): all scalars `""`, all sequences
empty. -/
def create_empty_template : Record :=
  { basics :=
      { name := "", label := "", image := "", email := "", phone := "",
        url := "", summary := "",
        location :=
          { address := "", postalCode := "", city := "", countryCode := "",
            region := "" },
        profiles := [] },
    work := [], volunteer := [], education := [], awards := [],
    certificates := [], publications := [], skills := [], languages := [],
    interests := [], references := [], projects := [] }

def LocationInfo.toJValue (l : LocationInfo) : JValue :=
  .obj [("address", .str l.address), ("postalCode", .str l.postalCode),
        ("city", .str l.city), ("countryCode", .str l.countryCode),
        ("region", .str l.region)]

def ProfileEntry.toJValue (p : ProfileEntry) : JValue :=
  .obj [("network", .str p.network), ("url", .str p.url),
        ("username", .str p.username)]

def BasicsInfo.toJValue (b : BasicsInfo) : JValue :=
  .obj [("name", .str b.name), ("label", .str b.label), ("image", .str b.image),
        ("email", .str b.email), ("phone", .str b.phone), ("url", .str b.url),
        ("summary", .str b.summary), ("location", b.location.toJValue),
        ("profiles", .list (b.profiles.map ProfileEntry.toJValue))]

def WorkEntry.toJValue (w : WorkEntry) : JValue :=
  .obj [("name", .str w.name), ("position", .str w.position),
        ("startDate", .str w.startDate), ("endDate", .str w.endDate),
        ("summary", .str w.summary),
        ("highlights", .list (w.highlights.map JValue.str)),
        ("url", .str w.url), ("keywords", .list (w.keywords.map JValue.str))]

def EducationEntry.toJValue (e : EducationEntry) : JValue :=
  .obj [("institution", .str e.institution), ("area", .str e.area),
        ("studyType", .str e.studyType), ("startDate", .str e.startDate),
        ("endDate", .str e.endDate), ("score", .str e.score),
        ("courses", .list (e.courses.map JValue.str))]

def SkillEntry.toJValue (s : SkillEntry) : JValue :=
  .obj [("name", .str s.name), ("level", .str s.level),
        ("keywords", .list (s.keywords.map JValue.str))]

def LanguageEntry.toJValue (l : LanguageEntry) : JValue :=
  .obj [("language", .str l.language), ("fluency", .str l.fluency)]

def CertificateEntry.toJValue (c : CertificateEntry) : JValue :=
  .obj [("name", .str c.name), ("date", .str c.date), ("issuer", .str c.issuer),
        ("url", .str c.url), ("keywords", .list (c.keywords.map JValue.str))]

def ProjectEntry.toJValue (p : ProjectEntry) : JValue :=
  .obj [("name", .str p.name), ("description", .str p.description),
        ("startDate", .str p.startDate), ("endDate", .str p.endDate),
        ("url", .str p.url), ("highlights", .list (p.highlights.map JValue.str)),
        ("keywords", .list (p.keywords.map JValue.str))]

/-- The record as the Python dict it is in the source, with the key order of
`_create_empty_template`. -/
def Record.toJValue (r : Record) : JValue :=
  .obj [("basics", r.basics.toJValue),
        ("work", .list (r.work.map WorkEntry.toJValue)),
        ("volunteer", .list r.volunteer),
        ("education", .list (r.education.map EducationEntry.toJValue)),
        ("awards", .list r.awards),
        ("certificates", .list (r.certificates.map CertificateEntry.toJValue)),
        ("publications", .list r.publications),
        ("skills", .list (r.skills.map SkillEntry.toJValue)),
        ("languages", .list (r.languages.map LanguageEntry.toJValue)),
        ("interests", .list r.interests),
        ("references", .list r.references),
        ("projects", .list (r.projects.map ProjectEntry.toJValue))]

/-! ## Record assembler & confidence scorer -/

/-- Python truthiness of a JSON value (`if value`): empty strings, empty
lists and empty dicts are falsy. -/
def jTruthy : JValue → Bool
  | .str s => !(s == "")
  | .list l => !l.isEmpty
  | .obj o => !o.isEmpty

/-- The contribution of one top-level value to `_count_populated_fields`
(lines 948–956): a list contributes its length, a dict the number of its
truthy values, anything else nothing. -/
def jCount1 : JValue → Nat
  | .list l => l.length
  | .obj o => (o.filter (fun p => jTruthy p.2)).length
  | .str _ => 0

/-- `_count_populated_fields` (lines 948–956). -/
def count_populated_fields : JValue → Nat
  | .obj fields => fields.foldl (fun acc p => acc + jCount1 p.2) 0
  | _ => 0

/-- The denominator of `_calculate_confidence` (line 945): the summed
lengths of the top-level list-valued fields. -/
def total_list_fields : JValue → Nat
  | .obj fields =>
      fields.foldl (fun acc p => acc + match p.2 with | .list l => l.length | _ => 0) 0
  | _ => 0

/-- `_calculate_confidence` (lines 942–946):
`populated / total * 100` when `total > 0`, else `0`.  Python computes in
floating point; we use exact rationals (the claims are about exact
comparisons with `0` and `100` and small integer counts, where IEEE 754
division is exact enough that the distinction does not matter). -/
def calculate_confidence (j : JValue) : ℚ :=
  if 0 < total_list_fields j then
    (count_populated_fields j : ℚ) / (total_list_fields j : ℚ) * 100
  else 0

/-- `load_from_json` (lines 902–916): on a successful parse the loaded JSON
value replaces `self.resume_data` wholesale, with no validation. -/
def load_from_json (data : JValue) : JValue := data

/-! ## Keyword/skill classifier -/

/-- The category table of `_categorize_skill` (lines 309–317), in source
order. -/
def skillCategories : List (String × List String) :=
  [("Programming Languages",
    ["python", "java", "javascript", "c++", "c#", "ruby", "php", "swift",
     "kotlin", "go", "rust", "scala"]),
   ("Web Development",
    ["html", "css", "react", "angular", "vue", "node", "express", "django",
     "flask"]),
   ("Data Science",
    ["machine learning", "data analysis", "statistics", "jupyter", "pandas",
     "numpy", "tensorflow", "pytorch", "ai"]),
   ("DevOps & Cloud",
    ["aws", "azure", "gcp", "docker", "kubernetes", "jenkins", "ci/cd",
     "terraform"]),
   ("Databases",
    ["sql", "nosql", "mongodb", "postgresql", "mysql", "firebase", "redis"]),
   ("Mobile Development",
    ["android", "ios", "flutter", "react native", "swift", "kotlin"]),
   ("Soft Skills",
    ["leadership", "teamwork", "communication", "problem solving",
     "project management"])]

/-- `any(keyword in skill_lower for keyword in keywords)` for one category
row (line 321). -/
def catMatches (cat : String × List String) (skill : String) : Bool :=
  cat.2.any (fun kw => isSubstring kw.data (pyLower skill).data)

/-- `_categorize_skill` (lines 304–325): first matching category in table
order, defaulting to `"Other Skills"`. -/
def categorize_skill (skill : String) : String :=
  match skillCategories.find? (fun cat => catMatches cat skill) with
  | some cat => cat.1
  | none => "Other Skills"

/-- The five literal-alternation patterns of `_extract_keywords_from_text`
(lines 289–295), as ordered alternation lists (each regex is a plain `|` of
literals and is run against the lower-cased text). -/
def techPatterns : List (List String) :=
  [["python", "java", "javascript", "typescript", "html", "css", "c++",
    "ruby", "php", "swift", "kotlin", "go", "rust", "scala", "sql"],
   ["react", "angular", "vue", "node", "express", "django", "flask",
    "spring", "laravel", "rails"],
   ["aws", "azure", "gcp", "docker", "kubernetes", "terraform", "jenkins",
    "git", "ci/cd"],
   ["machine learning", "ml", "ai", "data science", "nlp", "computer vision"],
   ["agile", "scrum", "kanban", "waterfall", "leadership", "teamwork",
    "communication"]]

/-- Insertion-order deduplication.  The source computes
`list(set(keywords))` whose order is unspecified by Python; the spec
declares keyword order insignificant, and no claim depends on it, so we fix
the first-occurrence order. -/
def dedupFirst : List String → List String
  | [] => []
  | x :: rest => x :: (dedupFirst rest).filter (fun y => !(y == x))

/-- `_extract_keywords_from_text` (lines 283–302): `re.findall` of each
literal alternation over the lower-cased text, concatenated, deduplicated. -/
def extract_keywords_from_text (text : String) : List String :=
  if text == "" then []
  else
    let low := (pyLower text).data
    dedupFirst
      ((techPatterns.map (fun lits =>
          (findallWhole (palt (lits.map (fun l => Pat.lit l.data))) low).map
            String.mk)).flatten)

/-! ## Bullet points and LinkedIn date formatting -/

/-- The bullet pattern `[•\-*]\s*([^•\-*\n]+)` shared by
`_extract_bullet_points` (line 825) and `_extract_skills` (line 688). -/
def bulletPat : Pat :=
  pseq [.cls (fun c => c == '•' || c == '-' || c == '*') 1 (some 1) true,
        .cls isPySpace 0 none true,
        .grp 1 (.cls (fun c => !(c == '•' || c == '-' || c == '*' || c == '\n'))
                  1 none true)]

/-- `_extract_bullet_points` (lines 823–826). -/
def extract_bullet_points (text : String) : List String :=
  ((findallGrp1 bulletPat text.data).map (fun l => pyStrip (String.mk l))).filter
    (fun s => !(s == ""))

/-- `_format_linkedin_date` (lines 266–281): `""` stays `""`; `MM/DD/YYYY`
and `MM/YYYY` become `f"{year}-{month}"`; anything else is returned
unchanged. -/
def format_linkedin_date (dateStr : String) : String :=
  if dateStr == "" then ""
  else
    match splitOnChar '/' dateStr.data with
    | [month, _day, year] => String.mk (year ++ '-' :: month)
    | [month, year] => String.mk (year ++ '-' :: month)
    | _ => dateStr

/-! ## Shared date-range patterns

`_extract_work_experience`, `_extract_education` and `_extract_projects`
each contain a literal copy of the same three-element `date_patterns` list
(lines 585–589, 650–654, 733–737), searched with `re.IGNORECASE` in that
priority order; we define it once. -/

/-- `[-–]`. -/
def isDashCh (c : Char) : Bool := c == '-' || c == '–'

/-- `(?:Jan|Feb|…|Dec)` under `IGNORECASE`. -/
def monthAlt : Pat :=
  palt (["Jan", "Feb", "Mar", "Apr", "May", "Jun", "Jul", "Aug", "Sep", "Oct",
         "Nov", "Dec"].map (fun m => Pat.litI m.data))

/-- `(?:Jan|…|Dec)[a-z]*\.?\s+\d{4}` under `IGNORECASE` (`[a-z]` matches
both cases under the flag). -/
def monthYearPat : Pat :=
  pseq [monthAlt, .cls isAsciiLetter 0 none true, popt (.lit ['.']),
        .cls isPySpace 1 none true, .cls isDigitCh 4 (some 4) true]

/-- `\d{1,2}/\d{4}`. -/
def slashDatePat : Pat :=
  pseq [.cls isDigitCh 1 (some 2) true, .lit ['/'], .cls isDigitCh 4 (some 4) true]

/-- `\d{4}`. -/
def year4Pat : Pat := .cls isDigitCh 4 (some 4) true

/-- `(A)\s*[-–]\s*(A|Present|Current)` for a date alternative `A`. -/
def dateRangePat (a : Pat) : Pat :=
  pseq [.grp 1 a, .cls isPySpace 0 none true, .cls isDashCh 1 (some 1) true,
        .cls isPySpace 0 none true,
        .grp 2 (palt [a, .litI "Present".data, .litI "Current".data])]

/-- The `date_patterns` list, in source priority order. -/
def datePatterns : List Pat :=
  [dateRangePat monthYearPat, dateRangePat slashDatePat, dateRangePat year4Pat]

/-- The `for pattern in date_patterns: … break` loop (lines 594–599):
captures of the first pattern that matches anywhere in the entry. -/
def searchDateCaps : List Pat → List Char → Option Caps
  | [], _ => none
  | p :: ps, entry =>
    match reSearch p entry with
    | some (_, caps, _) => some caps
    | none => searchDateCaps ps entry

/-- `(start_date, end_date)` from the first matching date pattern, i.e.
`(match.group(1), match.group(2))`. -/
def extract_date_range (entry : List Char) : Option (List Char × List Char) :=
  (searchDateCaps datePatterns entry).map
    (fun caps => ((getCap caps 1).getD [], (getCap caps 2).getD []))

/-- `re.split(r'\n\s*\n', text)`: the entry-candidate splitter shared by the
work/education/projects/certifications extractors. -/
def blankLinePat : Pat :=
  pseq [.lit ['\n'], .cls isPySpace 0 none true, .lit ['\n']]

/-- Entry candidates of a section body (blank-line split). -/
def splitEntryCandidates (text : String) : List (List Char) :=
  reSplit blankLinePat text.data

/-! ## Work experience extractor (`_extract_work_experience`, lines 566–620) -/

/-- `^([A-Z][A-Za-z\s,]+)(?:[-–|]|at|\n)` with `re.MULTILINE`. -/
def workTitlePat : Pat :=
  pseq [.bolM,
        .grp 1 (pseq [.cls isUpperAZ 1 (some 1) true,
                      .cls (fun c => isAsciiLetter c || isPySpace c || c == ',')
                        1 none true]),
        palt [.cls (fun c => c == '-' || c == '–' || c == '|') 1 (some 1) true,
              .lit "at".data, .lit ['\n']]]

/-- `(?:at|with|for)?\s*([A-Z][A-Za-z0-9\s&,.]+)` (the `company_pattern`). -/
def companyPat : Pat :=
  pseq [popt (palt [.lit "at".data, .lit "with".data, .lit "for".data]),
        .cls isPySpace 0 none true,
        .grp 1 (pseq [.cls isUpperAZ 1 (some 1) true,
                      .cls (fun c => isAsciiLetter c || isDigitCh c ||
                              isPySpace c || c == '&' || c == ',' || c == '.')
                        1 none true])]

/-- `{company_pattern}.*?(?=\n\n|\Z)` with `re.DOTALL` (line 602). -/
def workDescPat : Pat :=
  pseq [popt (palt [.lit "at".data, .lit "with".data, .lit "for".data]),
        .cls isPySpace 0 none true,
        .grp 1 (pseq [.cls isUpperAZ 1 (some 1) true,
                      .cls (fun c => isAsciiLetter c || isDigitCh c ||
                              isPySpace c || c == '&' || c == ',' || c == '.')
                        1 none true]),
        .cls (fun _ => true) 0 none false,
        .look (palt [.lit ['\n', '\n'], .eosP])]

/-- The body of the entry loop of `_extract_work_experience`: `none` when the
entry is skipped (blank, or neither title nor company found). -/
def work_item_of_entry (entry : List Char) : Option WorkEntry :=
  if (pyStripList entry).isEmpty then none
  else
    let titleM := reSearch workTitlePat entry
    let title :=
      match titleM with
      | some (_, caps, _) => pyStrip (String.mk ((getCap caps 1).getD []))
      | none => ""
    let titleEnd := match titleM with | some (_, _, e) => e | none => 0
    let company :=
      match reSearch companyPat (entry.drop titleEnd) with
      | some (_, caps, _) => pyStrip (String.mk ((getCap caps 1).getD []))
      | none => ""
    let dates := extract_date_range entry
    let startDate := match dates with | some (s, _) => String.mk s | none => ""
    let endDate := match dates with | some (_, e) => String.mk e | none => ""
    let description :=
      match reSearch workDescPat entry with
      | some (s, _, e) => pyStrip (String.mk (pySlice entry s e))
      | none => ""
    if title == "" && company == "" then none
    else
      some { name := company, position := title, startDate := startDate,
             endDate := endDate, summary := description,
             highlights := extract_bullet_points description, url := "",
             keywords := extract_keywords_from_text description }

/-- `_extract_work_experience` as the list of work entries appended for a
section body. -/
def extract_work_experience (text : String) : List WorkEntry :=
  (splitEntryCandidates text).filterMap work_item_of_entry

/-! ## Education extractor (`_extract_education`, lines 622–683) -/

/-- `([A-Z][A-Za-z\s&,]+(?:University|College|Institute|School))`. -/
def institutionPat1 : Pat :=
  .grp 1 (pseq [.cls isUpperAZ 1 (some 1) true,
                .cls (fun c => isAsciiLetter c || isPySpace c || c == '&' || c == ',')
                  1 none true,
                palt [.lit "University".data, .lit "College".data,
                      .lit "Institute".data, .lit "School".data]])

/-- `((?:University|College|Institute|School)\s+of\s+[A-Z][A-Za-z\s&,]+)`. -/
def institutionPat2 : Pat :=
  .grp 1 (pseq [palt [.lit "University".data, .lit "College".data,
                      .lit "Institute".data, .lit "School".data],
                .cls isPySpace 1 none true, .lit "of".data,
                .cls isPySpace 1 none true,
                .cls isUpperAZ 1 (some 1) true,
                .cls (fun c => isAsciiLetter c || isPySpace c || c == '&' || c == ',')
                  1 none true])

/-- `(?:Bachelor|Master|Ph\.?D|Doctor|Associate)(?:\'s|s)?\s+(?:of|in|degree\s+in)?\s+([A-Za-z\s&,]+)`
with `re.IGNORECASE`. -/
def degreePat : Pat :=
  pseq [palt [.litI "Bachelor".data, .litI "Master".data,
              pseq [.litI "Ph".data, popt (.lit ['.']), .litI "D".data],
              .litI "Doctor".data, .litI "Associate".data],
        popt (palt [pseq [.cls (fun c => c == '\'') 1 (some 1) true, .litI "s".data],
                    .litI "s".data]),
        .cls isPySpace 1 none true,
        popt (palt [.litI "of".data, .litI "in".data,
                    pseq [.litI "degree".data, .cls isPySpace 1 none true,
                          .litI "in".data]]),
        .cls isPySpace 1 none true,
        .grp 1 (.cls (fun c => isAsciiLetter c || isPySpace c || c == '&' || c == ',')
                  1 none true)]

/-- `GPA:?\s*([\d\.]+)` with `re.IGNORECASE`. -/
def gpaPat : Pat :=
  pseq [.litI "GPA".data, popt (.lit [':']), .cls isPySpace 0 none true,
        .grp 1 (.cls (fun c => isDigitCh c || c == '.') 1 none true)]

/-- The body of the entry loop of `_extract_education`. -/
def education_item_of_entry (entry : List Char) : Option EducationEntry :=
  if (pyStripList entry).isEmpty then none
  else
    let institution :=
      match reSearch institutionPat1 entry with
      | some (_, caps, _) => pyStrip (String.mk ((getCap caps 1).getD []))
      | none =>
        match reSearch institutionPat2 entry with
        | some (_, caps, _) => pyStrip (String.mk ((getCap caps 1).getD []))
        | none => ""
    let degreeM := reSearch degreePat entry
    let studyType :=
      match degreeM with
      | some (s, _, e) => pyStrip (String.mk (pySlice entry s e))
      | none => ""
    let area :=
      match degreeM with
      | some (_, caps, _) => pyStrip (String.mk ((getCap caps 1).getD []))
      | none => ""
    let dates := extract_date_range entry
    let startDate := match dates with | some (s, _) => String.mk s | none => ""
    let endDate := match dates with | some (_, e) => String.mk e | none => ""
    let score :=
      match reSearch gpaPat entry with
      | some (_, caps, _) => String.mk ((getCap caps 1).getD [])
      | none => ""
    if institution == "" && studyType == "" then none
    else
      some { institution := institution, area := area, studyType := studyType,
             startDate := startDate, endDate := endDate, score := score,
             courses := extract_bullet_points (String.mk entry) }

/-- `_extract_education` as the list of appended education entries. -/
def extract_education (text : String) : List EducationEntry :=
  (splitEntryCandidates text).filterMap education_item_of_entry

/-! ## Skills extractor (`_extract_skills`, lines 685–717) -/

/-- `re.split(r',|\n', …)`. -/
def commaNewlinePat : Pat := palt [.lit [','], .lit ['\n']]

/-- The flat token list: bullet contents (or the whole section when there
are no bullets), split on commas/newlines, stripped, non-empty. -/
def skillTokens (text : String) : List String :=
  let skillLists :=
    match findallGrp1 bulletPat text.data with
    | [] => [text.data]
    | ls => ls
  (skillLists.map (fun skillText =>
      ((reSplit commaNewlinePat skillText).map
          (fun l => pyStrip (String.mk l))).filter (fun s => !(s == "")))).flatten

/-- Insert a skill into its category bucket, preserving first-seen category
order (Python dict insertion semantics of `skill_categories`). -/
def groupInsert (d : List (String × List String)) (cat skill : String) :
    List (String × List String) :=
  if d.any (fun p => p.1 == cat) then
    d.map (fun p => if p.1 == cat then (p.1, p.2 ++ [skill]) else p)
  else d ++ [(cat, [skill])]

/-- The `skill_categories` dict after the grouping loop. -/
def groupSkills (tokens : List String) : List (String × List String) :=
  tokens.foldl (fun d skill => groupInsert d (categorize_skill skill) skill) []

/-- `_extract_skills` as the list of appended skill entries. -/
def extract_skills (text : String) : List SkillEntry :=
  (groupSkills (skillTokens text)).map
    (fun p => { name := p.1, level := "", keywords := p.2 })

/-! ## Projects extractor (`_extract_projects`, lines 719–771) -/

/-- `^([A-Z][A-Za-z0-9\s&,.:-]+)` with `re.MULTILINE`. -/
def projectTitlePat : Pat :=
  pseq [.bolM,
        .grp 1 (pseq [.cls isUpperAZ 1 (some 1) true,
                      .cls (fun c => isAsciiLetter c || isDigitCh c ||
                              isPySpace c || c == '&' || c == ',' || c == '.' ||
                              c == ':' || c == '-')
                        1 none true])]

/-- The body of the entry loop of `_extract_projects`. -/
def project_item_of_entry (entry : List Char) : Option ProjectEntry :=
  if (pyStripList entry).isEmpty then none
  else
    let titleM := reSearch projectTitlePat entry
    let projectName :=
      match titleM with
      | some (_, caps, _) => pyStrip (String.mk ((getCap caps 1).getD []))
      | none => ""
    let dates := extract_date_range entry
    let startDate := match dates with | some (s, _) => String.mk s | none => ""
    let endDate := match dates with | some (_, e) => String.mk e | none => ""
    let description :=
      match titleM with
      | some (_, _, e) => pyStrip (String.mk (entry.drop e))
      | none => pyStrip (String.mk entry)
    if projectName == "" then none
    else
      some { name := projectName, description := description,
             startDate := startDate, endDate := endDate, url := "",
             highlights := extract_bullet_points description,
             keywords := extract_keywords_from_text description }

/-- `_extract_projects` as the list of appended project entries. -/
def extract_projects (text : String) : List ProjectEntry :=
  (splitEntryCandidates text).filterMap project_item_of_entry

/-! ## Certifications extractor (`_extract_certifications`, lines 773–806) -/

/-- `(?:issued|awarded|certified)\s+by\s+([A-Za-z\s&,.]+)` with
`re.IGNORECASE`. -/
def issuerPat : Pat :=
  pseq [palt [.litI "issued".data, .litI "awarded".data, .litI "certified".data],
        .cls isPySpace 1 none true, .litI "by".data, .cls isPySpace 1 none true,
        .grp 1 (.cls (fun c => isAsciiLetter c || isPySpace c || c == '&' ||
                        c == ',' || c == '.') 1 none true)]

/-- `(?:issued|awarded|completed|earned)\s+(?:on|in)\s+(\w+\s+\d{4}|\d{2}/\d{4}|\d{4})`
with `re.IGNORECASE`. -/
def certDatePat : Pat :=
  pseq [palt [.litI "issued".data, .litI "awarded".data, .litI "completed".data,
              .litI "earned".data],
        .cls isPySpace 1 none true, palt [.litI "on".data, .litI "in".data],
        .cls isPySpace 1 none true,
        .grp 1 (palt [pseq [.cls isWordCh 1 none true, .cls isPySpace 1 none true,
                            .cls isDigitCh 4 (some 4) true],
                      pseq [.cls isDigitCh 2 (some 2) true, .lit ['/'],
                            .cls isDigitCh 4 (some 4) true],
                      .cls isDigitCh 4 (some 4) true])]

/-- The body of the entry loop of `_extract_certifications`. -/
def certification_item_of_entry (entry : List Char) : Option CertificateEntry :=
  if (pyStripList entry).isEmpty then none
  else
    let certName :=
      match splitOnChar '\n' entry with
      | first :: _ => pyStrip (String.mk first)
      | [] => ""
    let issuer :=
      match reSearch issuerPat entry with
      | some (_, caps, _) => pyStrip (String.mk ((getCap caps 1).getD []))
      | none => ""
    let date :=
      match reSearch certDatePat entry with
      | some (_, caps, _) => String.mk ((getCap caps 1).getD [])
      | none => ""
    if certName == "" then none
    else
      some { name := certName, date := date, issuer := issuer, url := "",
             keywords := extract_keywords_from_text (String.mk entry) }

/-- `_extract_certifications` as the list of appended certificate entries. -/
def extract_certifications (text : String) : List CertificateEntry :=
  (splitEntryCandidates text).filterMap certification_item_of_entry

/-! ## Languages extractor (`_extract_languages`, lines 808–821) -/

/-- `([A-Z][a-z]+(?:\s+[A-Z][a-z]+)?)\s*[:-]?\s*(Native|Fluent|Professional|Intermediate|Basic|Beginner|Advanced)?`
(case-sensitive). -/
def languagePat : Pat :=
  pseq [.grp 1 (pseq [.cls isUpperAZ 1 (some 1) true, .cls isLowerAZ 1 none true,
                      popt (pseq [.cls isPySpace 1 none true,
                                  .cls isUpperAZ 1 (some 1) true,
                                  .cls isLowerAZ 1 none true])]),
        .cls isPySpace 0 none true,
        popt (.cls (fun c => c == ':' || c == '-') 1 (some 1) true),
        .cls isPySpace 0 none true,
        popt (.grp 2 (palt [.lit "Native".data, .lit "Fluent".data,
                            .lit "Professional".data, .lit "Intermediate".data,
                            .lit "Basic".data, .lit "Beginner".data,
                            .lit "Advanced".data]))]

/-- `_extract_languages` as the list of appended language entries. -/
def extract_languages (text : String) : List LanguageEntry :=
  (findallGrp2 languagePat text.data).filterMap (fun m =>
    if (pyStripList m.1).isEmpty then none
    else
      some { language := pyStrip (String.mk m.1),
             fluency := if m.2.isEmpty then "Fluent" else pyStrip (String.mk m.2) })

/-! ## Personal and contact information (`_extract_personal_info`,
`_extract_contact_info`, lines 495–564) -/

/-- `\s+[A-Z][a-z]+`: one further capitalized word of the name pattern. -/
def nameWordPat : Pat :=
  pseq [.cls isPySpace 1 none true, .cls isUpperAZ 1 (some 1) true,
        .cls isLowerAZ 1 none true]

/-- `(?:\s+[A-Z][a-z]+){1,3}` expanded greedily (3, then 2, then 1 copies). -/
def nameWordsRep13 : Pat :=
  palt [pseq [nameWordPat, nameWordPat, nameWordPat],
        pseq [nameWordPat, nameWordPat], nameWordPat]

/-- `^[A-Z][a-z]+(?:\s+[A-Z][a-z]+){1,3}$` (used with `re.match` on a
single line). -/
def nameLinePat : Pat :=
  pseq [.bos, .cls isUpperAZ 1 (some 1) true, .cls isLowerAZ 1 none true,
        nameWordsRep13, .dollar]

/-- `(?:Name|NAME):\s*([A-Z][a-z]+(?:\s+[A-Z][a-z]+){1,3})`. -/
def namePrefixPat : Pat :=
  pseq [palt [.lit "Name".data, .lit "NAME".data], .lit [':'],
        .cls isPySpace 0 none true,
        .grp 1 (pseq [.cls isUpperAZ 1 (some 1) true, .cls isLowerAZ 1 none true,
                      nameWordsRep13])]

/-- `_extract_personal_info` (lines 495–516): first of the initial seven
lines matching the name pattern under 40 characters, else a `Name:` label. -/
def extract_personal_info (r : Record) (text : String) : Record :=
  let firstLines := (splitOnChar '\n' (pyStrip text).data).take 7
  let approach1 :=
    firstLines.findSome? (fun rawLine =>
      let line := pyStripList rawLine
      if (reMatchStart nameLinePat line).isSome && line.length < 40 then
        some (String.mk line)
      else none)
  let r1 :=
    match approach1 with
    | some n => { r with basics := { r.basics with name := n } }
    | none => r
  if r1.basics.name == "" then
    match reSearch namePrefixPat text.data with
    | some (_, caps, _) =>
      { r1 with basics :=
          { r1.basics with name := String.mk ((getCap caps 1).getD []) } }
    | none => r1
  else r1

/-- `\b[A-Za-z0-9._%+-]+@[A-Za-z0-9.-]+\.[A-Z|a-z]{2,}\b` (the class
`[A-Z|a-z]` really contains `|`, as written in the source). -/
def emailPat : Pat :=
  pseq [.wb,
        .cls (fun c => isAsciiLetter c || isDigitCh c || c == '.' || c == '_' ||
                c == '%' || c == '+' || c == '-') 1 none true,
        .lit ['@'],
        .cls (fun c => isAsciiLetter c || isDigitCh c || c == '.' || c == '-')
          1 none true,
        .lit ['.'],
        .cls (fun c => isUpperAZ c || c == '|' || isLowerAZ c) 2 none true,
        .wb]

/-- `[\s.-]`. -/
def isPhoneSep (c : Char) : Bool := isPySpace c || c == '.' || c == '-'

/-- `(?:\+\d{1,2}\s)?\(?\d{3}\)?[\s.-]?\d{3}[\s.-]?\d{4}`. -/
def phonePat1 : Pat :=
  pseq [popt (pseq [.lit ['+'], .cls isDigitCh 1 (some 2) true,
                    .cls isPySpace 1 (some 1) true]),
        popt (.lit ['(']), .cls isDigitCh 3 (some 3) true, popt (.lit [')']),
        .cls isPhoneSep 0 (some 1) true, .cls isDigitCh 3 (some 3) true,
        .cls isPhoneSep 0 (some 1) true, .cls isDigitCh 4 (some 4) true]

/-- `\+\d{1,2}\s\d{3}\s\d{3}\s\d{4}`. -/
def phonePat2 : Pat :=
  pseq [.lit ['+'], .cls isDigitCh 1 (some 2) true, .cls isPySpace 1 (some 1) true,
        .cls isDigitCh 3 (some 3) true, .cls isPySpace 1 (some 1) true,
        .cls isDigitCh 3 (some 3) true, .cls isPySpace 1 (some 1) true,
        .cls isDigitCh 4 (some 4) true]

/-- `\d{3}[-\.\s]??\d{3}[-\.\s]??\d{4}` (lazy optional separators). -/
def phonePat3 : Pat :=
  pseq [.cls isDigitCh 3 (some 3) true, .cls isPhoneSep 0 (some 1) false,
        .cls isDigitCh 3 (some 3) true, .cls isPhoneSep 0 (some 1) false,
        .cls isDigitCh 4 (some 4) true]

/-- `\(\d{3}\)\s*\d{3}[-\.\s]??\d{4}`. -/
def phonePat4 : Pat :=
  pseq [.lit ['('], .cls isDigitCh 3 (some 3) true, .lit [')'],
        .cls isPySpace 0 none true, .cls isDigitCh 3 (some 3) true,
        .cls isPhoneSep 0 (some 1) false, .cls isDigitCh 4 (some 4) true]

/-- The `phone_patterns` list in priority order (lines 529–534). -/
def phonePatterns : List Pat := [phonePat1, phonePat2, phonePat3, phonePat4]

/-- `linkedin\.com/in/[\w-]+` with `re.IGNORECASE`. -/
def linkedinPat1 : Pat :=
  pseq [.litI "linkedin.com/in/".data,
        .cls (fun c => isWordCh c || c == '-') 1 none true]

/-- `linkedin\.com/profile/[\w-]+` with `re.IGNORECASE`. -/
def linkedinPat2 : Pat :=
  pseq [.litI "linkedin.com/profile/".data,
        .cls (fun c => isWordCh c || c == '-') 1 none true]

/-- `_extract_contact_info` (lines 518–564): first email match, first
matching phone-pattern variant, first LinkedIn URL (normalized to an
absolute URL with the final path segment as username). -/
def extract_contact_info (r : Record) (text : String) : Record :=
  let r1 :=
    match (findallWhole emailPat text.data).head? with
    | some m => { r with basics := { r.basics with email := String.mk m } }
    | none => r
  let r2 :=
    match phonePatterns.findSome? (fun p => (findallWhole p text.data).head?) with
    | some m => { r1 with basics := { r1.basics with phone := String.mk m } }
    | none => r1
  match [linkedinPat1, linkedinPat2].findSome?
      (fun p => (findallWhole p text.data).head?) with
  | some m =>
    let url0 := String.mk m
    let url := if url0.startsWith "http" then url0 else "https://" ++ url0
    { r2 with basics :=
        { r2.basics with profiles := r2.basics.profiles ++
            [{ network := "LinkedIn", url := url,
               username := String.mk ((splitOnChar '/' url.data).getLastD []) }] } }
  | none => r2

/-! ## Section segmentation (`_parse_resume_text`, lines 443–493) -/

/-- `(WORK|PROFESSIONAL|EMPLOYMENT)\s?(EXPERIENCE|HISTORY)` (inner groups
are modelled as non-capturing: only the enclosing group 1 is ever read). -/
def secWorkPat : Pat :=
  pseq [palt [.litI "WORK".data, .litI "PROFESSIONAL".data, .litI "EMPLOYMENT".data],
        .cls isPySpace 0 (some 1) true,
        palt [.litI "EXPERIENCE".data, .litI "HISTORY".data]]

/-- `(VOLUNTEER|COMMUNITY)\s?(EXPERIENCE|WORK|SERVICE)`. -/
def secVolunteerPat : Pat :=
  pseq [palt [.litI "VOLUNTEER".data, .litI "COMMUNITY".data],
        .cls isPySpace 0 (some 1) true,
        palt [.litI "EXPERIENCE".data, .litI "WORK".data, .litI "SERVICE".data]]

/-- The `section_patterns` alternation (lines 444–455), in priority order. -/
def sectionAlt : Pat :=
  palt [secWorkPat,
        .litI "EDUCATION".data,
        .litI "SKILLS".data,
        pseq [.litI "PROJECT".data, popt (.litI "S".data)],
        pseq [.litI "CERTIFICATION".data, popt (.litI "S".data)],
        pseq [.litI "LANGUAGE".data, popt (.litI "S".data)],
        secVolunteerPat,
        pseq [.litI "PUBLICATION".data, popt (.litI "S".data)],
        .litI "AWARDS".data,
        .litI "INTERESTS".data]

/-- `(?:^|\n)({combined_pattern})(?::|\n|$)` with `re.IGNORECASE`
(line 461). -/
def primarySectionPat : Pat :=
  pseq [palt [.bos, .lit ['\n']], .grp 1 sectionAlt,
        palt [.lit [':'], .lit ['\n'], .dollar]]

/-- `\n([A-Z][A-Z\s]{2,}:?)\s*\n`: the looser fallback pattern (line 466). -/
def fallbackSectionPat : Pat :=
  pseq [.lit ['\n'],
        .grp 1 (pseq [.cls isUpperAZ 1 (some 1) true,
                      .cls (fun c => isUpperAZ c || isPySpace c) 2 none true,
                      popt (.lit [':'])]),
        .cls isPySpace 0 none true, .lit ['\n']]

/-- The primary `section_matches` list (line 461). -/
def primary_section_matches (text : List Char) : List (Nat × Caps × Nat) :=
  finditer primarySectionPat text

/-- The fallback `section_matches` list (line 466). -/
def fallback_section_matches (text : List Char) : List (Nat × Caps × Nat) :=
  finditer fallbackSectionPat text

/-- Lines 461–466: the looser fallback is attempted only when the primary
scan is empty **and** `self.debug` is set (the fallback assignment sits
inside `if not section_matches and self.debug:`). -/
def section_matches (debug : Bool) (text : List Char) : List (Nat × Caps × Nat) :=
  let ms := primary_section_matches text
  if ms.isEmpty && debug then fallback_section_matches text else ms

/-- The `(section_name, section_content)` pairs produced by the extraction
loop (lines 470–478): name is `match.group(1).upper()`, content runs from
`match.end()` to the next match's start (or the end of text), stripped. -/
def section_spans (text : List Char) : List (Nat × Caps × Nat) → List (String × String)
  | [] => []
  | [m] =>
    [(pyUpper (String.mk ((getCap m.2.1 1).getD [])),
      pyStrip (String.mk (pySlice text m.2.2 text.length)))]
  | m :: m2 :: rest =>
    (pyUpper (String.mk ((getCap m.2.1 1).getD [])),
     pyStrip (String.mk (pySlice text m.2.2 m2.1))) ::
      section_spans text (m2 :: rest)

/-- One `sections[section_name] = section_content` step with Python dict
semantics: an existing key keeps its position but its value is replaced. -/
def dictInsert (d : List (String × String)) (k v : String) :
    List (String × String) :=
  if d.any (fun p => p.1 == k) then
    d.map (fun p => if p.1 == k then (p.1, v) else p)
  else d ++ [(k, v)]

/-- The `sections` dict after the loop of lines 469–478. -/
def build_sections (spans : List (String × String)) : List (String × String) :=
  spans.foldl (fun d p => dictInsert d p.1 p.2) []

/-- The dispatch of lines 481–493: route one section to its extractor. -/
def process_section (r : Record) (sec : String × String) : Record :=
  let name := sec.1
  let content := sec.2
  if ["WORK", "EXPERIENCE", "EMPLOYMENT", "PROFESSIONAL"].any
      (fun w => strContains name w) then
    { r with work := r.work ++ extract_work_experience content }
  else if strContains name "EDUCATION" then
    { r with education := r.education ++ extract_education content }
  else if strContains name "SKILLS" then
    { r with skills := r.skills ++ extract_skills content }
  else if strContains name "PROJECT" then
    { r with projects := r.projects ++ extract_projects content }
  else if strContains name "CERTIF" then
    { r with certificates := r.certificates ++ extract_certifications content }
  else if strContains name "LANGUAGE" then
    { r with languages := r.languages ++ extract_languages content }
  else r

/-- The `for section_name, content in sections.items()` loop. -/
def process_sections (r : Record) (secs : List (String × String)) : Record :=
  secs.foldl process_section r

/-- `_parse_resume_text` (lines 423–493) along the regex path (the
transformer branch, lines 428–437, is modelled by
`regex_pipeline_runs`): personal info, then contact info, then section
segmentation and dispatch. -/
def parse_resume_text (debug : Bool) (text : String) : Record :=
  let r1 := extract_personal_info create_empty_template text
  let r2 := extract_contact_info r1 text
  process_sections r2
    (build_sections (section_spans text.data (section_matches debug text.data)))

/-- The control flow of lines 428–441: does the traditional regex pipeline
run?  The early `return` that skips it sits inside
`if success and self.debug:`, so the pipeline is skipped only when the
transformer extraction succeeded **and** debugging is on.
`_extract_with_transformers` returns `False` on `ImportError` (line 1023),
so an unavailable library yields `oracleSuccess = false`. -/
def regex_pipeline_runs (useTransformers transformersAvailable oracleSuccess
    debug : Bool) : Bool :=
  if useTransformers && transformersAvailable then
    if oracleSuccess && debug then false else true
  else true

/-! ## Text normalizer, header-isolation step (`_post_process_text`,
line 419) -/

/-- `re.sub(r'([^\n])([A-Z]{5,})', r'\1\n\n\2', text)`: step 4 of
`_post_process_text`. -/
def headerIsolationPat : Pat :=
  pseq [.grp 1 (.cls (fun c => !(c == '\n')) 1 (some 1) true),
        .grp 2 (.cls isUpperAZ 5 none true)]

/-- The header-isolation step of the text normalizer. -/
def header_isolation_step (text : String) : String :=
  String.mk (reSub headerIsolationPat
    [.inl 1, .inr ['\n', '\n'], .inl 2] text.data)

/-- Modelled from the amended claim's words, to be compared with the
source-derived `header_isolation_step`: scan the text left to right; at
every character other than a newline that is immediately followed by a run
of at least five consecutive upper-case letters, emit that character, a
blank line, and the (maximal) run, and continue after the run; at every
other character emit it unchanged.  So a blank line is inserted before
every ≥5-capital run immediately following a non-newline character, and
nowhere else. -/
def headerIsoSpec : List Char → List Char
  | [] => []
  | c :: rest =>
    if ¬ c = '\n' ∧ 5 ≤ (rest.takeWhile isUpperAZ).length then
      c :: '\n' :: '\n' :: rest.takeWhile isUpperAZ ++
        headerIsoSpec (rest.drop (rest.takeWhile isUpperAZ).length)
    else c :: headerIsoSpec rest
termination_by s => s.length
decreasing_by
  all_goals simp [List.length_drop]
  all_goals omega

/-! ## LinkedIn tabular path (lines 67–264) -/

/-- One CSV row as read by `csv.DictReader`; `row.get(col, "")` never fails
on a missing column. -/
structure CsvRow where
  cells : List (String × String)

/-- `row.get(key, "")`. -/
def rowGet (row : CsvRow) (k : String) : String :=
  ((row.cells.find? (fun p => p.1 == k)).map (fun p => p.2)).getD ""

/-- The work item built per row by `_process_linkedin_positions`
(lines 140–149); note `endDate` is
`self._format_linkedin_date(row.get("Finished On", "")) or "Present"`. -/
def process_linkedin_position (row : CsvRow) : WorkEntry :=
  { name := rowGet row "Company Name",
    position := rowGet row "Title",
    startDate := format_linkedin_date (rowGet row "Started On"),
    endDate :=
      (fun d => if d == "" then "Present" else d)
        (format_linkedin_date (rowGet row "Finished On")),
    summary := rowGet row "Description",
    highlights := [], url := "",
    keywords := extract_keywords_from_text (rowGet row "Description") }

/-- `_process_linkedin_positions` (lines 134–154). -/
def process_linkedin_positions (r : Record) (rows : List CsvRow) : Record :=
  { r with work := r.work ++ rows.map process_linkedin_position }

/-- `_process_linkedin_profile` (lines 106–132): only the first row is
processed. -/
def process_linkedin_profile (r : Record) (rows : List CsvRow) : Record :=
  match rows with
  | [] => r
  | row :: _ =>
    { r with basics :=
        { r.basics with
          name := rowGet row "First Name" ++ " " ++ rowGet row "Last Name",
          label := rowGet row "Headline",
          summary := rowGet row "Summary",
          location :=
            { r.basics.location with
              city := rowGet row "City",
              region := rowGet row "State",
              countryCode := rowGet row "Country" },
          profiles := r.basics.profiles ++
            [{ network := "LinkedIn",
               url := rowGet row "Public Profile Url",
               username := rowGet row "Vanity Name" }] } }

/-- `_process_linkedin_education` (lines 156–175). -/
def process_linkedin_education (r : Record) (rows : List CsvRow) : Record :=
  { r with education := r.education ++ rows.map (fun row =>
      { institution := rowGet row "School Name",
        area := rowGet row "Field Of Study",
        studyType := rowGet row "Degree Name",
        startDate := format_linkedin_date (rowGet row "Start Date"),
        endDate :=
          (fun d => if d == "" then "Present" else d)
            (format_linkedin_date (rowGet row "End Date")),
        score := "",
        courses :=
          ((splitOnChar ',' (rowGet row "Activities and Societies").data).map
              (fun c => pyStrip (String.mk c))).filter (fun s => !(s == "")) }) }

/-- `_process_linkedin_skills` (lines 177–208). -/
def process_linkedin_skills (r : Record) (rows : List CsvRow) : Record :=
  let tokens := (rows.map (fun row => rowGet row "Name")).filter (fun s => !(s == ""))
  let entries := (groupSkills tokens).map
    (fun p => ({ name := p.1, level := "", keywords := p.2 } : SkillEntry))
  { r with skills := r.skills ++ entries }

/-- `_process_linkedin_languages` (lines 210–224). -/
def process_linkedin_languages (r : Record) (rows : List CsvRow) : Record :=
  { r with languages := r.languages ++ rows.map (fun row =>
      { language := rowGet row "Name", fluency := rowGet row "Proficiency" }) }

/-- `_process_linkedin_projects` (lines 226–245). -/
def process_linkedin_projects (r : Record) (rows : List CsvRow) : Record :=
  { r with projects := r.projects ++ rows.map (fun row =>
      { name := rowGet row "Title",
        description := rowGet row "Description",
        startDate := format_linkedin_date (rowGet row "Started On"),
        endDate :=
          (fun d => if d == "" then "Present" else d)
            (format_linkedin_date (rowGet row "Finished On")),
        url := rowGet row "Url",
        highlights := [],
        keywords := extract_keywords_from_text (rowGet row "Description") }) }

/-- `_process_linkedin_certifications` (lines 247–264). -/
def process_linkedin_certifications (r : Record) (rows : List CsvRow) : Record :=
  { r with certificates := r.certificates ++ rows.map (fun row =>
      { name := rowGet row "Name",
        date := format_linkedin_date (rowGet row "Started On"),
        issuer := rowGet row "Authority",
        url := rowGet row "Url",
        keywords := [] }) }

/-- `_process_linkedin_directory` (lines 85–104): the processors run in the
`file_processors` order; a missing file is simply skipped, which has the
same effect on the record as an empty row list. -/
def import_from_linkedin (profileRows positionRows educationRows skillRows
    languageRows projectRows certificationRows : List CsvRow) : Record :=
  let r := create_empty_template
  let r := process_linkedin_profile r profileRows
  let r := process_linkedin_positions r positionRows
  let r := process_linkedin_education r educationRows
  let r := process_linkedin_skills r skillRows
  let r := process_linkedin_languages r languageRows
  let r := process_linkedin_projects r projectRows
  process_linkedin_certifications r certificationRows

/-! ## Schema-completeness predicate (claim C7) -/

/-- Key presence in a JSON object. -/
def hasKey (j : JValue) (k : String) : Bool :=
  match j with
  | .obj o => o.any (fun p => p.1 == k)
  | _ => false

/-- Value of a key in a JSON object. -/
def getKey (j : JValue) (k : String) : Option JValue :=
  match j with
  | .obj o => (o.find? (fun p => p.1 == k)).map (fun p => p.2)
  | _ => none

/-- Modelled from the claim wording: the record carries every key of the
canonical data model — the eleven top-level sequences plus `basics` with
its scalar leaves, `location` sub-object and `profiles` sequence. -/
def schemaComplete (j : JValue) : Bool :=
  (["basics", "work", "volunteer", "education", "awards", "certificates",
    "publications", "skills", "languages", "interests", "references",
    "projects"].all (fun k => hasKey j k)) &&
  (match getKey j "basics" with
   | some b =>
     (["name", "label", "email", "phone", "url", "summary", "location",
       "profiles"].all (fun k => hasKey b k)) &&
     (match getKey b "location" with
      | some loc =>
        ["address", "postalCode", "city", "countryCode", "region"].all
          (fun k => hasKey loc k)
      | none => false)
   | none => false)

/-- Modelled from the claim wording of C6: a `YYYY-MM` token (four digits,
a hyphen, two digits). -/
def specYYYYMM (s : String) : Bool :=
  match s.data with
  | [a, b, c, d, dash, e, f] =>
    isDigitCh a && isDigitCh b && isDigitCh c && isDigitCh d &&
      dash == '-' && isDigitCh e && isDigitCh f
  | _ => false

/-! ## Static pattern measures (used by the generic matcher lemmas) -/

/-- A lower bound on the number of characters any match of `p` consumes. -/
def minLen : Pat → Nat
  | .lit l => l.length
  | .litI l => l.length
  | .cls _ lo _ _ => lo
  | .eps => 0
  | .seq p q => minLen p + minLen q
  | .alt p q => Nat.min (minLen p) (minLen q)
  | .grp _ p => minLen p
  | .look _ => 0
  | .wb => 0
  | .bos => 0
  | .bolM => 0
  | .dollar => 0
  | .eosP => 0

/-- Every capture group of `p` wraps a subpattern that must consume at
least one character. -/
def groupsPosOK : Pat → Bool
  | .seq p q => groupsPosOK p && groupsPosOK q
  | .alt p q => groupsPosOK p && groupsPosOK q
  | .grp _ p => decide (1 ≤ minLen p) && groupsPosOK p
  | .look _ => true
  | _ => true

/-- Group `i` is bound on every successful match of `p`. -/
def alwaysBinds (i : Nat) : Pat → Bool
  | .seq p q => alwaysBinds i p || alwaysBinds i q
  | .alt p q => alwaysBinds i p && alwaysBinds i q
  | .grp j p => (j == i) || alwaysBinds i p
  | _ => false

/-! ## Generic matcher lemmas -/

theorem mem_countdown {cap n k : Nat} (h : k ∈ countdown cap n) :
    cap + 1 - n ≤ k ∧ k ≤ cap := by
  induction n generalizing cap with
  | zero => simp [countdown] at h
  | succ n ih =>
    simp only [countdown, List.mem_cons] at h
    rcases h with rfl | h
    · omega
    · have := ih h
      omega

theorem mem_countup {lo n k : Nat} (h : k ∈ countup lo n) :
    lo ≤ k ∧ k ≤ lo + n - 1 := by
  induction n generalizing lo with
  | zero => simp [countup] at h
  | succ n ih =>
    simp only [countup, List.mem_cons] at h
    rcases h with rfl | h
    · omega
    · have := ih h
      omega

theorem takeWhile_length_le (f : Char → Bool) (s : List Char) :
    (s.takeWhile f).length ≤ s.length := by
  induction s with
  | nil => simp
  | cons a t ih =>
    simp only [List.takeWhile]
    cases f a
    · simp
    · simpa using Nat.succ_le_succ ih

theorem takeWhile_eq_self_of (f : Char → Bool) (s : List Char)
    (h : ∀ x ∈ s, f x = true) : s.takeWhile f = s := by
  induction s with
  | nil => rfl
  | cons a t ih =>
    simp only [List.takeWhile, h a (by simp)]
    exact congrArg (a :: ·) (ih (fun x hx => h x (by simp [hx])))

theorem clsCap_le (f : Char → Bool) (hi : Option Nat) (s : List Char) :
    clsCap f hi s ≤ (s.takeWhile f).length := by
  cases hi with
  | none => simp [clsCap]
  | some h => simp [clsCap]

theorem isPrefixCI_length : ∀ (l s : List Char), isPrefixCI l s = true →
    l.length ≤ s.length := by
  intro l
  induction l with
  | nil => simp
  | cons a t ih =>
    intro s h
    cases s with
    | nil => simp [isPrefixCI] at h
    | cons b u =>
      simp only [isPrefixCI, Bool.and_eq_true] at h
      have := ih u h.2
      simp only [List.length_cons]
      omega

theorem headq_mem {α : Type} {l : List α} {x : α} (h : l.head? = some x) :
    x ∈ l := by
  cases l <;> simp_all

theorem mrun_minLen : ∀ (p : Pat) (prev : Option Char) (s : List Char)
    (r : Caps × List Char × List Char),
    r ∈ mrun p prev s → minLen p ≤ r.2.1.length := by
  intro p
  induction p with
  | lit l =>
    intro prev s r hr
    simp only [mrun] at hr
    split at hr
    · simp only [List.mem_singleton] at hr
      subst hr
      simp [minLen]
    · simp at hr
  | litI l =>
    intro prev s r hr
    simp only [mrun] at hr
    split at hr
    · next hpre =>
      simp only [List.mem_singleton] at hr
      subst hr
      have hlen : l.length ≤ s.length := isPrefixCI_length _ _ hpre
      simp only [minLen, List.length_take]
      omega
    · simp at hr
  | cls f lo hi g =>
    intro prev s r hr
    simp only [mrun] at hr
    split at hr
    · next hle =>
      rcases List.mem_map.mp hr with ⟨k, hk, rfl⟩
      have hkb : lo ≤ k ∧ k ≤ clsCap f hi s := by
        cases g
        · simp only [if_neg (by simp : ¬ (false = true))] at hk
          have := mem_countup hk
          omega
        · simp only [if_pos rfl] at hk
          have := mem_countdown hk
          omega
      have hkl : k ≤ s.length :=
        le_trans (le_trans hkb.2 (clsCap_le f hi s)) (takeWhile_length_le f s)
      simp only [minLen, List.length_take]
      omega
    · simp at hr
  | eps =>
    intro prev s r hr
    exact Nat.zero_le _
  | seq p q ihp ihq =>
    intro prev s r hr
    simp only [mrun, List.mem_flatMap, List.mem_map] at hr
    obtain ⟨r1, hr1, r2, hr2, rfl⟩ := hr
    have h1 := ihp _ _ _ hr1
    have h2 := ihq _ _ _ hr2
    simp only [minLen, List.length_append]
    omega
  | alt p q ihp ihq =>
    intro prev s r hr
    simp only [mrun, List.mem_append] at hr
    rcases hr with h | h
    · have := ihp _ _ _ h
      simp only [minLen]
      exact le_trans (Nat.min_le_left _ _) this
    · have := ihq _ _ _ h
      simp only [minLen]
      exact le_trans (Nat.min_le_right _ _) this
  | grp i p ihp =>
    intro prev s r hr
    simp only [mrun, List.mem_map] at hr
    obtain ⟨r1, hr1, rfl⟩ := hr
    simpa using ihp _ _ _ hr1
  | look p ihp =>
    intro prev s r hr
    exact Nat.zero_le _
  | wb => intro prev s r hr; exact Nat.zero_le _
  | bos => intro prev s r hr; exact Nat.zero_le _
  | bolM => intro prev s r hr; exact Nat.zero_le _
  | dollar => intro prev s r hr; exact Nat.zero_le _
  | eosP => intro prev s r hr; exact Nat.zero_le _

theorem mrun_caps_nonempty : ∀ (p : Pat), groupsPosOK p = true →
    ∀ (prev : Option Char) (s : List Char) (r : Caps × List Char × List Char),
    r ∈ mrun p prev s → ∀ i g, (i, g) ∈ r.1 → g ≠ [] := by
  intro p
  induction p with
  | lit l =>
    intro _ prev s r hr i g hg
    simp only [mrun] at hr
    split at hr
    · simp only [List.mem_singleton] at hr
      subst hr
      simp at hg
    · simp at hr
  | litI l =>
    intro _ prev s r hr i g hg
    simp only [mrun] at hr
    split at hr
    · simp only [List.mem_singleton] at hr
      subst hr
      simp at hg
    · simp at hr
  | cls f lo hi g =>
    intro _ prev s r hr i g0 hg
    simp only [mrun] at hr
    split at hr
    · rcases List.mem_map.mp hr with ⟨k, _, rfl⟩
      simp at hg
    · simp at hr
  | eps =>
    intro _ prev s r hr i g hg
    simp only [mrun, List.mem_singleton] at hr
    subst hr
    simp at hg
  | seq p q ihp ihq =>
    intro hOK prev s r hr i g hg
    simp only [groupsPosOK, Bool.and_eq_true] at hOK
    simp only [mrun, List.mem_flatMap, List.mem_map] at hr
    obtain ⟨r1, hr1, r2, hr2, rfl⟩ := hr
    simp only [List.mem_append] at hg
    rcases hg with hg | hg
    · exact ihp hOK.1 _ _ _ hr1 i g hg
    · exact ihq hOK.2 _ _ _ hr2 i g hg
  | alt p q ihp ihq =>
    intro hOK prev s r hr i g hg
    simp only [groupsPosOK, Bool.and_eq_true] at hOK
    simp only [mrun, List.mem_append] at hr
    rcases hr with h | h
    · exact ihp hOK.1 _ _ _ h i g hg
    · exact ihq hOK.2 _ _ _ h i g hg
  | grp j p ihp =>
    intro hOK prev s r hr i g hg
    simp only [groupsPosOK, Bool.and_eq_true, decide_eq_true_eq] at hOK
    simp only [mrun, List.mem_map] at hr
    obtain ⟨r1, hr1, rfl⟩ := hr
    simp only [List.mem_cons] at hg
    rcases hg with hg | hg
    · have hlen := mrun_minLen p _ _ _ hr1
      have : 1 ≤ r1.2.1.length := le_trans hOK.1 hlen
      have hne : r1.2.1 ≠ [] := by
        intro hnil
        rw [hnil] at this
        simp at this
      injection hg with h1 h2
      rw [h2]
      exact hne
    · exact ihp hOK.2 _ _ _ hr1 i g hg
  | look p ihp =>
    intro _ prev s r hr i g hg
    simp only [mrun] at hr
    split at hr
    · simp at hr
    · simp only [List.mem_singleton] at hr
      subst hr
      simp at hg
  | wb =>
    intro _ prev s r hr i g hg
    simp only [mrun] at hr
    split at hr
    · simp only [List.mem_singleton] at hr
      subst hr
      simp at hg
    · simp at hr
  | bos =>
    intro _ prev s r hr i g hg
    simp only [mrun] at hr
    split at hr
    · simp only [List.mem_singleton] at hr
      subst hr
      simp at hg
    · simp at hr
  | bolM =>
    intro _ prev s r hr i g hg
    simp only [mrun] at hr
    split at hr
    · simp only [List.mem_singleton] at hr
      subst hr
      simp at hg
    · simp at hr
  | dollar =>
    intro _ prev s r hr i g hg
    simp only [mrun] at hr
    split at hr
    · simp only [List.mem_singleton] at hr
      subst hr
      simp at hg
    · simp at hr
  | eosP =>
    intro _ prev s r hr i g hg
    simp only [mrun] at hr
    split at hr
    · simp only [List.mem_singleton] at hr
      subst hr
      simp at hg
    · simp at hr

theorem mrun_binds : ∀ (p : Pat) (i : Nat), alwaysBinds i p = true →
    ∀ (prev : Option Char) (s : List Char) (r : Caps × List Char × List Char),
    r ∈ mrun p prev s → ∃ g, (i, g) ∈ r.1 := by
  intro p
  induction p with
  | seq p q ihp ihq =>
    intro i hB prev s r hr
    simp only [alwaysBinds, Bool.or_eq_true] at hB
    simp only [mrun, List.mem_flatMap, List.mem_map] at hr
    obtain ⟨r1, hr1, r2, hr2, rfl⟩ := hr
    rcases hB with hB | hB
    · obtain ⟨g, hg⟩ := ihp i hB _ _ _ hr1
      exact ⟨g, by simp [hg]⟩
    · obtain ⟨g, hg⟩ := ihq i hB _ _ _ hr2
      exact ⟨g, by simp [hg]⟩
  | alt p q ihp ihq =>
    intro i hB prev s r hr
    simp only [alwaysBinds, Bool.and_eq_true] at hB
    simp only [mrun, List.mem_append] at hr
    rcases hr with h | h
    · exact ihp i hB.1 _ _ _ h
    · exact ihq i hB.2 _ _ _ h
  | grp j p ihp =>
    intro i hB prev s r hr
    simp only [alwaysBinds, Bool.or_eq_true, beq_iff_eq] at hB
    simp only [mrun, List.mem_map] at hr
    obtain ⟨r1, hr1, rfl⟩ := hr
    rcases hB with rfl | hB
    · exact ⟨r1.2.1, by simp⟩
    · obtain ⟨g, hg⟩ := ihp i hB _ _ _ hr1
      exact ⟨g, by simp [hg]⟩
  | lit l => intro i hB; simp [alwaysBinds] at hB
  | litI l => intro i hB; simp [alwaysBinds] at hB
  | cls f lo hi g => intro i hB; simp [alwaysBinds] at hB
  | eps => intro i hB; simp [alwaysBinds] at hB
  | look p ihp => intro i hB; simp [alwaysBinds] at hB
  | wb => intro i hB; simp [alwaysBinds] at hB
  | bos => intro i hB; simp [alwaysBinds] at hB
  | bolM => intro i hB; simp [alwaysBinds] at hB
  | dollar => intro i hB; simp [alwaysBinds] at hB
  | eosP => intro i hB; simp [alwaysBinds] at hB

theorem reSearchAux_mem (p : Pat) (text : List Char) :
    ∀ (fuel i s : Nat) (caps : Caps) (e : Nat),
    reSearchAux p text i fuel = some (s, caps, e) →
    ∃ r ∈ mrun p (prevAt text s) (text.drop s), r.1 = caps := by
  intro fuel
  induction fuel with
  | zero => intro i s caps e h; simp [reSearchAux] at h
  | succ n ih =>
    intro i s caps e h
    simp only [reSearchAux] at h
    split at h
    · simp at h
    · cases htm : tryMatch p text i with
      | some ce =>
        rw [htm] at h
        simp only [Option.some.injEq, Prod.mk.injEq] at h
        obtain ⟨rfl, rfl, rfl⟩ := h
        simp only [tryMatch] at htm
        cases hm : (mrun p (prevAt text i) (text.drop i)).head? with
        | some r =>
          rw [hm] at htm
          simp only [Option.some.injEq] at htm
          exact ⟨r, headq_mem hm, by rw [← htm]⟩
        | none => rw [hm] at htm; simp at htm
      | none =>
        rw [htm] at h
        exact ih _ _ _ _ h

theorem findq_pred {α : Type} {p : α → Bool} : ∀ {l : List α} {a : α},
    l.find? p = some a → p a = true := by
  intro l
  induction l with
  | nil => intro a h; simp [List.find?] at h
  | cons x t ih =>
    intro a h
    simp only [List.find?] at h
    cases hp : p x
    · rw [hp] at h
      exact ih h
    · rw [hp] at h
      simp only [cond_true, Option.some.injEq] at h
      subst h
      exact hp

theorem search_group_nonempty (p : Pat) (text : List Char) (i : Nat)
    (hB : alwaysBinds i p = true) (hG : groupsPosOK p = true)
    {s e : Nat} {caps : Caps} (h : reSearch p text = some (s, caps, e)) :
    ∃ g, getCap caps i = some g ∧ g ≠ [] := by
  obtain ⟨r, hr, rfl⟩ := reSearchAux_mem p text _ _ _ _ _ h
  obtain ⟨g0, hg0⟩ := mrun_binds p i hB _ _ _ hr
  have hsome : (r.1.find? (fun c => c.1 == i)).isSome :=
    List.find?_isSome.mpr ⟨(i, g0), hg0, by simp⟩
  obtain ⟨pair, hfind⟩ := Option.isSome_iff_exists.mp hsome
  have hpred := findq_pred hfind
  have hmem : pair ∈ r.1 := List.mem_of_find?_eq_some hfind
  have h1 : pair.1 = i := by simpa using hpred
  refine ⟨pair.2, ?_, ?_⟩
  · simp [getCap, hfind]
  · exact mrun_caps_nonempty p hG _ _ _ hr pair.1 pair.2 (by
      simpa [Prod.mk.eta] using hmem)

/-! ## Claim C9 — skill categorization -/

theorem find_first_split {α : Type} (f : α → Bool) :
    ∀ l : List α,
      (∃ pre c post, l = pre ++ c :: post ∧ f c = true ∧
        (∀ x ∈ pre, f x = false) ∧ l.find? f = some c) ∨
      ((∀ x ∈ l, f x = false) ∧ l.find? f = none) := by
  intro l
  induction l with
  | nil => right; simp
  | cons a t ih =>
    cases ha : f a
    · rcases ih with ⟨pre, c, post, hsplit, hc, hpre, hfind⟩ | ⟨hall, hfind⟩
      · left
        refine ⟨a :: pre, c, post, by simp [hsplit], hc, ?_, ?_⟩
        · intro x hx
          rcases List.mem_cons.mp hx with rfl | hx
          · exact ha
          · exact hpre x hx
        · simp [List.find?, ha, hfind]
      · right
        constructor
        · intro x hx
          rcases List.mem_cons.mp hx with rfl | hx
          · exact ha
          · exact hall x hx
        · simp [List.find?, ha, hfind]
    · left
      exact ⟨[], a, t, by simp, ha, by simp, by simp [List.find?, ha]⟩

/-- C9: skill categorization is a deterministic total function: every token
maps to exactly one category — the first category in the fixed table order
whose keyword list has a case-insensitive substring match against the
token — and to `"Other Skills"` when no keyword list matches. -/
theorem claim_c9_categorize (s : String) :
    (∃ pre cat post, skillCategories = pre ++ cat :: post ∧
        catMatches cat s = true ∧ (∀ c ∈ pre, catMatches c s = false) ∧
        categorize_skill s = cat.1) ∨
    ((∀ c ∈ skillCategories, catMatches c s = false) ∧
        categorize_skill s = "Other Skills") := by
  rcases find_first_split (fun cat => catMatches cat s) skillCategories with
    ⟨pre, c, post, hsplit, hc, hpre, hfind⟩ | ⟨hall, hfind⟩
  · left
    exact ⟨pre, c, post, hsplit, hc, hpre, by simp [categorize_skill, hfind]⟩
  · right
    exact ⟨hall, by simp [categorize_skill, hfind]⟩

/-! ## Claim C10 — LinkedIn date formatter -/

/-- C10: the LinkedIn date formatter is total: `""` maps to `""`; a string
splitting on `/` into three parts `MM/DD/YYYY` maps to `YYYY-MM` (day
discarded); two parts `MM/YYYY` map to `YYYY-MM`; every other split shape
is returned unchanged. -/
theorem claim_c10_format (s : String) :
    (s = "" → format_linkedin_date s = "") ∧
    (∀ m d y, splitOnChar '/' s.data = [m, d, y] →
        format_linkedin_date s = String.mk (y ++ '-' :: m)) ∧
    (∀ m y, splitOnChar '/' s.data = [m, y] →
        format_linkedin_date s = String.mk (y ++ '-' :: m)) ∧
    (∀ parts, splitOnChar '/' s.data = parts → parts.length ≠ 2 →
        parts.length ≠ 3 → format_linkedin_date s = s) := by
  have hempty : s = "" → splitOnChar '/' s.data = [[]] := by
    intro h; subst h; rfl
  refine ⟨?_, ?_, ?_, ?_⟩
  · intro h; subst h; rfl
  · intro m d y h
    by_cases hs : s = ""
    · rw [hempty hs] at h
      simp at h
    · simp only [format_linkedin_date, beq_iff_eq, if_neg hs, h]
  · intro m y h
    by_cases hs : s = ""
    · rw [hempty hs] at h
      simp at h
    · simp only [format_linkedin_date, beq_iff_eq, if_neg hs, h]
  · intro parts h h2 h3
    by_cases hs : s = ""
    · subst hs; rfl
    · simp only [format_linkedin_date, beq_iff_eq, if_neg hs, h]
      match parts, h2, h3 with
      | [], _, _ => rfl
      | [a], _, _ => rfl
      | [a, b], h2, _ => exact absurd rfl h2
      | [a, b, c], _, h3 => exact absurd rfl h3
      | a :: b :: c :: d :: rest, _, _ => rfl

theorem claim_c10_format_witness :
    splitOnChar '/' "01/15/2019".data = ["01".data, "15".data, "2019".data] ∧
    format_linkedin_date "01/15/2019" = "2019-01" ∧
    splitOnChar '/' "03/2020".data = ["03".data, "2020".data] ∧
    format_linkedin_date "03/2020" = "2020-03" ∧
    format_linkedin_date "already" = "already" := by
  refine ⟨by decide, ?_, by decide, ?_, ?_⟩
  · have h := (claim_c10_format "01/15/2019").2.1 "01".data "15".data "2019".data
      (by decide)
    rw [h]; rfl
  · have h := (claim_c10_format "03/2020").2.2.1 "03".data "2020".data (by decide)
    rw [h]; rfl
  · have h := (claim_c10_format "already").2.2.2 ["already".data] (by decide)
      (by decide) (by decide)
    rw [h]

/-! ## Claim C3 — transformer short-circuit (code bug: the early return
that skips the regex pipeline is guarded by `self.debug`) -/

/-- C3 evaluation: with the oracle enabled, available and successful, the
regex pipeline is nevertheless executed when `debug` is off (first
conjunct), and skipped only when `debug` is also on (second conjunct); an
unsuccessful or unavailable oracle always falls back to the pipeline. -/
theorem claim_c3_oracle_gate :
    regex_pipeline_runs true true true false = true ∧
    regex_pipeline_runs true true true true = false ∧
    regex_pipeline_runs true true false false = true ∧
    regex_pipeline_runs true true false true = true ∧
    regex_pipeline_runs true false false false = true := by decide

/-! ## Claim C4 — fallback header pattern (code bug: the fallback scan is
guarded by `self.debug`) -/

/-- C4 evaluation: on a text where the prioritized patterns find nothing
but the looser pattern finds a header, the code yields no sections with
`debug = false` and one section with `debug = true`. -/
theorem claim_c4_fallback_gate :
    primary_section_matches "x\nCONTACT INFO\ny".data = [] ∧
    section_matches false "x\nCONTACT INFO\ny".data = [] ∧
    (section_matches true "x\nCONTACT INFO\ny".data).map
      (fun m => String.mk ((getCap m.2.1 1).getD [])) = ["CONTACT INFO"] := by
  refine ⟨by decide, by decide, by decide⟩

/-! ## Claim C7 — schema completeness -/

theorem schemaComplete_toJValue (r : Record) : schemaComplete r.toJValue = true := rfl

/-- C7 counterexample: `load_from_json` replaces the record with the loaded
JSON value verbatim, so a loaded record need not contain the canonical
keys. -/
theorem claim_c7_counterexample :
    schemaComplete (load_from_json (JValue.obj [("foo", JValue.str "x")])) = false ∧
    hasKey (load_from_json (JValue.obj [("foo", JValue.str "x")])) "work" = false := by
  decide

/-- C7 amended: every record produced by the free-text parsing path or by
the LinkedIn tabular path contains every key of the canonical data model
(top-level sequences, `basics` scalars, `location` sub-object, `profiles`);
only the JSON-load path gives no such guarantee. -/
theorem claim_c7_schema_complete :
    (∀ (debug : Bool) (text : String),
        schemaComplete (parse_resume_text debug text).toJValue = true) ∧
    (∀ profileRows positionRows educationRows skillRows languageRows
        projectRows certificationRows : List CsvRow,
        schemaComplete (import_from_linkedin profileRows positionRows
          educationRows skillRows languageRows projectRows
          certificationRows).toJValue = true) := by
  exact ⟨fun _ _ => schemaComplete_toJValue _,
         fun _ _ _ _ _ _ _ => schemaComplete_toJValue _⟩

/-! ## Claim C1 — confidence score (corrected) -/

/-- C1 counterexample: a one-job import yields confidence `200` (the
claim says confidence is within `[0, 100]`), and a document contributing
only a name yields confidence `0` with a non-empty `basics` scalar (the
claim says confidence is `0` only when every `basics` scalar is empty). -/
theorem claim_c1_counterexample :
    count_populated_fields
      (parse_resume_text false "WORK EXPERIENCE\nEngineer\n2019 - 2021").toJValue = 2 ∧
    total_list_fields
      (parse_resume_text false "WORK EXPERIENCE\nEngineer\n2019 - 2021").toJValue = 1 ∧
    calculate_confidence
      (parse_resume_text false "WORK EXPERIENCE\nEngineer\n2019 - 2021").toJValue = 200 ∧
    (parse_resume_text false "Jane Doe").basics.name = "Jane Doe" ∧
    calculate_confidence (parse_resume_text false "Jane Doe").toJValue = 0 := by
  have h1 : count_populated_fields
      (parse_resume_text false "WORK EXPERIENCE\nEngineer\n2019 - 2021").toJValue = 2 := by
    decide
  have h2 : total_list_fields
      (parse_resume_text false "WORK EXPERIENCE\nEngineer\n2019 - 2021").toJValue = 1 := by
    decide
  have h3 : total_list_fields (parse_resume_text false "Jane Doe").toJValue = 0 := by
    decide
  refine ⟨h1, h2, ?_, by decide, ?_⟩
  · rw [calculate_confidence, h1, h2]
    norm_num
  · rw [calculate_confidence, h3]
    norm_num

/-! ## Claim C2 — duplicate section labels (corrected) -/

/-- C2 counterexample: the scan finds two `SKILLS` sections with bodies
`"python"` and `"teamwork"`, but the `sections` dict keeps only the last
body, and the resulting record contains only the second body's output —
the first body's `"python"` is lost. -/
theorem claim_c2_counterexample :
    section_spans "SKILLS\npython\n\nSKILLS\nteamwork".data
        (section_matches false "SKILLS\npython\n\nSKILLS\nteamwork".data) =
      [("SKILLS", "python"), ("SKILLS", "teamwork")] ∧
    build_sections
        (section_spans "SKILLS\npython\n\nSKILLS\nteamwork".data
          (section_matches false "SKILLS\npython\n\nSKILLS\nteamwork".data)) =
      [("SKILLS", "teamwork")] ∧
    (parse_resume_text false "SKILLS\npython\n\nSKILLS\nteamwork").skills =
      [{ name := "Soft Skills", level := "", keywords := ["teamwork"] }] := by
  refine ⟨by decide, by decide, by decide⟩

/-! ## Claim C5 — explicit end tokens (corrected) -/

/-- C5 counterexample: an explicit `Current` end token is stored verbatim
as `"Current"`, not as the literal `"Present"` the claim requires. -/
theorem claim_c5_counterexample :
    (extract_work_experience "Engineer\nJan 2020 - Current").map
      (fun w => w.endDate) = ["Current"] ∧
    ("Current" : String) ≠ "Present" := by
  refine ⟨by decide, by decide⟩

theorem searchDateCaps_group2 :
    ∀ ps : List Pat,
      (∀ p ∈ ps, alwaysBinds 2 p = true ∧ groupsPosOK p = true) →
      ∀ (entry : List Char) (caps : Caps),
        searchDateCaps ps entry = some caps →
        ∃ g, getCap caps 2 = some g ∧ g ≠ [] := by
  intro ps
  induction ps with
  | nil => intro _ entry caps h; simp [searchDateCaps] at h
  | cons p rest ih =>
    intro hps entry caps h
    simp only [searchDateCaps] at h
    cases hr : reSearch p entry with
    | some x =>
      rw [hr] at h
      simp only [Option.some.injEq] at h
      subst h
      obtain ⟨s, caps, e⟩ := x
      exact search_group_nonempty p entry 2 (hps p (by simp)).1
        (hps p (by simp)).2 hr
    | none =>
      rw [hr] at h
      exact ih (fun q hq => hps q (by simp [hq])) entry caps h

/-- C5 amended: whenever one of the ordered date-range patterns matches an
entry, the extracted end token (`match.group(2)`) is non-empty — but it is
stored verbatim (so `Current`, `current`, bare years and `M/YYYY` tokens
all survive unchanged; an explicit `Present`/`Current` token is **not**
normalized to `"Present"`). -/
theorem claim_c5_end_token (entry sd ed : List Char)
    (h : extract_date_range entry = some (sd, ed)) : ed ≠ [] := by
  simp only [extract_date_range] at h
  cases hs : searchDateCaps datePatterns entry with
  | none => rw [hs] at h; simp at h
  | some caps =>
    rw [hs] at h
    simp only [Option.map, Option.some.injEq, Prod.mk.injEq] at h
    obtain ⟨-, rfl⟩ := h
    have hall : ∀ p ∈ datePatterns, alwaysBinds 2 p = true ∧ groupsPosOK p = true := by
      intro p hp
      fin_cases hp
      · exact ⟨by decide, by decide⟩
      · exact ⟨by decide, by decide⟩
      · exact ⟨by decide, by decide⟩
    obtain ⟨g, hget, hne⟩ := searchDateCaps_group2 datePatterns hall entry caps hs
    rw [hget]
    simpa using hne

theorem claim_c5_end_token_witness :
    extract_date_range "Jan 2020 - Present".data =
      some ("Jan 2020".data, "Present".data) ∧ "Present".data ≠ [] :=
  ⟨by decide, claim_c5_end_token "Jan 2020 - Present".data "Jan 2020".data
    "Present".data (by decide)⟩

/-! ## Claim C6 — endDate shape invariant (corrected) -/

/-- C6 counterexample: the free-text extractor stores the matched end token
verbatim, so a bare-year range yields `endDate = "2021"`, which is neither
empty, nor a `YYYY-MM` token, nor `"Present"`. -/
theorem claim_c6_counterexample :
    (extract_work_experience "Engineer\n2019 - 2021").map (fun w => w.endDate) =
      ["2021"] ∧
    specYYYYMM "2021" = false ∧
    ("2021" : String) ≠ "" ∧ ("2021" : String) ≠ "Present" := by
  refine ⟨by decide, by decide, by decide, by decide⟩

theorem work_item_endDate (chunk : List Char) (w : WorkEntry)
    (h : work_item_of_entry chunk = some w) :
    w.endDate = match extract_date_range chunk with
      | some (_, ed) => String.mk ed
      | none => "" := by
  unfold work_item_of_entry at h
  cases hdr : extract_date_range chunk with
  | none =>
    simp only [hdr] at h
    repeat' split at h
    all_goals first
      | (obtain rfl := Option.some.inj h; rfl)
      | simp at h
  | some p =>
    obtain ⟨sd, ed⟩ := p
    simp only [hdr] at h
    repeat' split at h
    all_goals first
      | (obtain rfl := Option.some.inj h; rfl)
      | simp at h

/-- C6 amended: `endDate` is never null — on the free-text path it is the
empty string or exactly the verbatim second capture of the first matching
date-range pattern on the entry's blank-line chunk (hence possibly a bare
year, a `M/YYYY` token, or any casing of `Present`/`Current`, not
necessarily `YYYY-MM` or the literal `"Present"`); on the LinkedIn path it
is never empty (`"Present"` when `Finished On` is empty, otherwise the
reformatted value). -/
theorem claim_c6_endDate_shape :
    (∀ (text : String) (w : WorkEntry), w ∈ extract_work_experience text →
        w.endDate = "" ∨ ∃ chunk ∈ splitEntryCandidates text, ∃ sd,
          extract_date_range chunk = some (sd, w.endDate.data)) ∧
    (∀ row : CsvRow, (process_linkedin_position row).endDate ≠ "") := by
  constructor
  · intro text w hw
    obtain ⟨chunk, hchunk, hitem⟩ :=
      List.mem_filterMap.mp (by simpa [extract_work_experience] using hw)
    have hED := work_item_endDate chunk w hitem
    cases hdr : extract_date_range chunk with
    | none =>
      left
      rw [hdr] at hED
      exact hED
    | some p =>
      right
      obtain ⟨sd, ed⟩ := p
      rw [hdr] at hED
      refine ⟨chunk, hchunk, sd, ?_⟩
      rw [hED]
      exact hdr
  · intro row
    by_cases h : format_linkedin_date (rowGet row "Finished On") = "" <;>
      simp [process_linkedin_position, h]

theorem claim_c6_endDate_shape_witness :
    let w : WorkEntry :=
      { name := "", position := "Engineer", startDate := "2019",
        endDate := "2021", summary := "Engineer\n2019 - 2021",
        highlights := ["2021"], url := "", keywords := [] }
    w ∈ extract_work_experience "Engineer\n2019 - 2021" ∧
      (w.endDate = "" ∨ ∃ chunk ∈ splitEntryCandidates "Engineer\n2019 - 2021",
        ∃ sd, extract_date_range chunk = some (sd, w.endDate.data)) := by
  exact ⟨by decide, claim_c6_endDate_shape.1 "Engineer\n2019 - 2021" _ (by decide)⟩

/-! ## Claim C2 amended — last body wins in the sections dict -/

theorem lookup_map_replace_ne (d : List (String × String)) (q v k : String)
    (hne : ¬ k = q) :
    List.lookup k (d.map (fun p => if p.1 == q then (p.1, v) else p)) =
      List.lookup k d := by
  induction d with
  | nil => rfl
  | cons a t ih =>
    rw [List.map_cons]
    by_cases ha : a.1 = q
    · have hhead : (if a.1 == q then (a.1, v) else a) = (a.1, v) := by simp [ha]
      rw [hhead]
      have hk : (k == a.1) = false :=
        beq_eq_false_iff_ne.mpr (fun hc => hne (hc.trans ha))
      simp only [List.lookup, hk]
      exact ih
    · have hhead : (if a.1 == q then (a.1, v) else a) = a := by simp [ha]
      rw [hhead]
      simp only [List.lookup]
      cases k == a.1
      · exact ih
      · rfl

theorem lookup_map_replace_eq (d : List (String × String)) (q v : String) :
    List.lookup q (d.map (fun p => if p.1 == q then (p.1, v) else p)) =
      if d.any (fun p => p.1 == q) then some v else List.lookup q d := by
  induction d with
  | nil => rfl
  | cons a t ih =>
    rw [List.map_cons, List.any_cons]
    by_cases ha : a.1 = q
    · have hhead : (if a.1 == q then (a.1, v) else a) = (a.1, v) := by simp [ha]
      rw [hhead]
      have hq : (q == a.1) = true := beq_iff_eq.mpr ha.symm
      have ha' : (a.1 == q) = true := beq_iff_eq.mpr ha
      simp [List.lookup, hq, ha']
    · have hhead : (if a.1 == q then (a.1, v) else a) = a := by simp [ha]
      rw [hhead]
      have hq : (q == a.1) = false :=
        beq_eq_false_iff_ne.mpr (fun hc => ha hc.symm)
      have ha' : (a.1 == q) = false := beq_eq_false_iff_ne.mpr ha
      simp only [List.lookup, hq, ha', Bool.false_or]
      exact ih

theorem lookup_append_pair (d : List (String × String)) (q v k : String) :
    List.lookup k (d ++ [(q, v)]) =
      match List.lookup k d with
      | some w => some w
      | none => if k == q then some v else none := by
  induction d with
  | nil =>
    simp only [List.nil_append, List.lookup]
    by_cases h : k = q
    · simp [h]
    · simp [h, beq_eq_false_iff_ne.mpr h]
  | cons a t ih =>
    simp only [List.cons_append, List.lookup]
    cases k == a.1
    · exact ih
    · rfl

theorem lookup_none_of_not_any (d : List (String × String)) (q : String)
    (h : d.any (fun p => p.1 == q) = false) : List.lookup q d = none := by
  induction d with
  | nil => rfl
  | cons a t ih =>
    simp only [List.any_cons, Bool.or_eq_false_iff] at h
    simp only [List.lookup]
    have : (q == a.1) = false := by
      have := h.1
      simp only [beq_eq_false_iff_ne, ne_eq] at this ⊢
      exact fun hc => this hc.symm
    rw [this]
    exact ih h.2

theorem lookup_dictInsert (d : List (String × String)) (q v k : String) :
    List.lookup k (dictInsert d q v) =
      if k == q then some v else List.lookup k d := by
  by_cases hq : d.any (fun p => p.1 == q)
  · simp only [dictInsert, if_pos hq]
    by_cases hk : k = q
    · subst hk
      rw [lookup_map_replace_eq, if_pos hq, if_pos (by simp)]
    · rw [lookup_map_replace_ne d q v k hk, if_neg (by simpa using hk)]
  · simp only [dictInsert, if_neg hq]
    rw [lookup_append_pair]
    by_cases hk : k = q
    · subst hk
      rw [lookup_none_of_not_any d k (by
        rw [← Bool.not_eq_true]
        exact hq)]
    · cases hl : List.lookup k d
      · simp [hk]
      · simp [hk]

theorem lookup_build_aux :
    ∀ (spans acc : List (String × String)) (k : String),
      List.lookup k (spans.foldl (fun d p => dictInsert d p.1 p.2) acc) =
        match spans.reverse.find? (fun p => p.1 == k) with
        | some p => some p.2
        | none => List.lookup k acc := by
  intro spans
  induction spans with
  | nil => intro acc k; rfl
  | cons s rest ih =>
    intro acc k
    simp only [List.foldl_cons]
    rw [ih, List.reverse_cons, List.find?_append]
    cases hf : rest.reverse.find? (fun p => p.1 == k) with
    | some p => simp [Option.or]
    | none =>
      simp only [Option.or]
      rw [lookup_dictInsert]
      by_cases hk : k = s.1
      · subst hk
        simp [List.find?]
      · have h1 : (s.1 == k) = false := by
          simp only [beq_eq_false_iff_ne, ne_eq]
          exact fun hc => hk hc.symm
        have h2 : (k == s.1) = false := by simpa using hk
        simp [List.find?, h1, h2]

/-- C2 amended: when a header label appears more than once, every match is
found by the scan, but the `sections` dict keeps only the **last** body for
each label (`sections[name] = content` overwrites), so only the last body
is routed to the extractor; earlier bodies under the same label are
discarded before dispatch. -/
theorem claim_c2_last_body_wins (spans : List (String × String)) (k : String) :
    List.lookup k (build_sections spans) =
      (spans.reverse.find? (fun p => p.1 == k)).map (fun p => p.2) := by
  have h := lookup_build_aux spans [] k
  rw [build_sections] at *
  rw [h]
  cases hf : spans.reverse.find? (fun p => p.1 == k) <;> simp

/-! ## Claim C1 amended — confidence characterization -/

theorem total_decomp (r : Record) :
    total_list_fields r.toJValue =
      r.work.length + r.volunteer.length + r.education.length +
      r.awards.length + r.certificates.length + r.publications.length +
      r.skills.length + r.languages.length + r.interests.length +
      r.references.length + r.projects.length := by
  simp [total_list_fields, Record.toJValue, BasicsInfo.toJValue,
    List.foldl_cons, List.foldl_nil, List.length_map]

theorem count_decomp (r : Record) :
    count_populated_fields r.toJValue =
      jCount1 r.basics.toJValue + total_list_fields r.toJValue := by
  simp [count_populated_fields, total_list_fields, Record.toJValue,
    BasicsInfo.toJValue, List.foldl_cons, List.foldl_nil, jCount1,
    List.length_map]
  omega

theorem basics_count_pos (b : BasicsInfo) : 1 ≤ jCount1 b.toJValue := by
  simp only [BasicsInfo.toJValue, jCount1]
  apply List.length_pos.mpr
  apply List.ne_nil_of_mem (a := ("location", b.location.toJValue))
  apply List.mem_filter.mpr
  constructor
  · simp
  · simp [jTruthy, LocationInfo.toJValue]

/-- C1 amended: the confidence of an imported record is
`populated / total × 100` where `total` is the summed length of the
top-level sequences — but `populated` counts, besides every sequence
element, every truthy top-level `basics` value, and the `location`
sub-dict is always truthy (it is a non-empty dict even when all its leaves
are empty strings).  Consequently confidence is `0` **iff** every top-level
sequence is empty (the `basics` scalars are irrelevant), and whenever any
sequence is non-empty the confidence exceeds `100`. -/
theorem claim_c1_confidence (debug : Bool) (text : String) :
    (calculate_confidence (parse_resume_text debug text).toJValue = 0 ↔
      total_list_fields (parse_resume_text debug text).toJValue = 0) ∧
    (0 < total_list_fields (parse_resume_text debug text).toJValue →
      100 < calculate_confidence (parse_resume_text debug text).toJValue) ∧
    total_list_fields (parse_resume_text debug text).toJValue =
      (parse_resume_text debug text).work.length +
      (parse_resume_text debug text).volunteer.length +
      (parse_resume_text debug text).education.length +
      (parse_resume_text debug text).awards.length +
      (parse_resume_text debug text).certificates.length +
      (parse_resume_text debug text).publications.length +
      (parse_resume_text debug text).skills.length +
      (parse_resume_text debug text).languages.length +
      (parse_resume_text debug text).interests.length +
      (parse_resume_text debug text).references.length +
      (parse_resume_text debug text).projects.length := by
  have key : ∀ r : Record,
      (calculate_confidence r.toJValue = 0 ↔ total_list_fields r.toJValue = 0) ∧
      (0 < total_list_fields r.toJValue →
        100 < calculate_confidence r.toJValue) ∧
      total_list_fields r.toJValue =
        r.work.length + r.volunteer.length + r.education.length +
        r.awards.length + r.certificates.length + r.publications.length +
        r.skills.length + r.languages.length + r.interests.length +
        r.references.length + r.projects.length := by
    intro r
    have hC := count_decomp r
    have hB := basics_count_pos r.basics
    have h2 : 0 < total_list_fields r.toJValue →
        100 < calculate_confidence r.toJValue := by
      intro ht
      rw [calculate_confidence, if_pos ht]
      have hCT : total_list_fields r.toJValue < count_populated_fields r.toJValue := by
        omega
      have hTpos : (0 : ℚ) < (total_list_fields r.toJValue : ℚ) := by
        exact_mod_cast ht
      have hCT2 : ((total_list_fields r.toJValue : ℚ)) <
          ((count_populated_fields r.toJValue : ℚ)) := by exact_mod_cast hCT
      rw [div_mul_eq_mul_div, lt_div_iff₀ hTpos]
      nlinarith
    refine ⟨⟨?_, ?_⟩, h2, total_decomp r⟩
    · intro h0
      by_contra hne
      have hpos : 0 < total_list_fields r.toJValue := Nat.pos_of_ne_zero hne
      have := h2 hpos
      rw [h0] at this
      norm_num at this
    · intro h0
      rw [calculate_confidence, if_neg (by omega)]
  exact key (parse_resume_text debug text)

theorem claim_c1_confidence_witness :
    0 < total_list_fields
      (parse_resume_text false "WORK EXPERIENCE\nEngineer\n2019 - 2021").toJValue ∧
    100 < calculate_confidence
      (parse_resume_text false "WORK EXPERIENCE\nEngineer\n2019 - 2021").toJValue :=
  ⟨by decide,
   (claim_c1_confidence false "WORK EXPERIENCE\nEngineer\n2019 - 2021").2.1 (by decide)⟩

/-! ## Claim C8 — header isolation (corrected) -/

/-- C8 counterexample: the pattern's first class is `[^\n]`, not
"non-whitespace": a five-capital run preceded by a **space** also gets a
blank line inserted, contradicting the claim's "only before runs whose
immediately preceding character is non-whitespace". -/
theorem claim_c8_counterexample :
    header_isolation_step " ABCDE" = " \n\nABCDE" ∧ isPySpace ' ' = true := by
  refine ⟨by decide, by decide⟩

theorem take_length_takeWhile (f : Char → Bool) (l : List Char) :
    l.take (l.takeWhile f).length = l.takeWhile f := by
  induction l with
  | nil => rfl
  | cons a t ih =>
    simp only [List.takeWhile]
    cases f a
    · simp
    · simp only [List.length_cons, List.take_succ_cons]
      rw [ih]

theorem mrun_headerIso_head (prev : Option Char) (s : List Char) :
    (mrun headerIsolationPat prev s).head? =
      match s with
      | [] => none
      | c :: rest =>
        if ¬ c = '\n' ∧ 5 ≤ (rest.takeWhile isUpperAZ).length then
          some ([(1, [c]), (2, rest.takeWhile isUpperAZ)],
                c :: rest.takeWhile isUpperAZ,
                rest.drop (rest.takeWhile isUpperAZ).length)
        else none := by
  cases s with
  | nil => rfl
  | cons c rest =>
    show (mrun headerIsolationPat prev (c :: rest)).head? =
      if ¬ c = '\n' ∧ 5 ≤ (rest.takeWhile isUpperAZ).length then
        some ([(1, [c]), (2, rest.takeWhile isUpperAZ)],
              c :: rest.takeWhile isUpperAZ,
              rest.drop (rest.takeWhile isUpperAZ).length)
      else none
    by_cases hc : c = '\n'
    · subst hc
      rw [if_neg (by simp)]
      simp [mrun, clsCap, List.takeWhile]
    · have hfc : (fun x => !(x == '\n')) c = true := by simp [hc]
      have htake : (c :: rest).takeWhile (fun x => !(x == '\n')) =
          c :: rest.takeWhile (fun x => !(x == '\n')) := by
        simp [List.takeWhile, hfc]
      have hcap1 : clsCap (fun x => !(x == '\n')) (some 1) (c :: rest) = 1 := by
        rw [clsCap, htake]
        exact Nat.min_eq_right (by simp)
      have hm1 : mrun (.cls (fun x => !(x == '\n')) 1 (some 1) true) prev
          (c :: rest) = [([], [c], rest)] := by
        simp [mrun, hcap1, countdown]
      have hm1g : mrun (.grp 1 (.cls (fun x => !(x == '\n')) 1 (some 1) true))
          prev (c :: rest) = [([(1, [c])], [c], rest)] := by
        have e : mrun (.grp 1 (.cls (fun x => !(x == '\n')) 1 (some 1) true))
            prev (c :: rest) =
          (mrun (.cls (fun x => !(x == '\n')) 1 (some 1) true) prev
            (c :: rest)).map (fun r => ((1, r.2.1) :: r.1, r.2.1, r.2.2)) := rfl
        rw [e, hm1]
        rfl
      have eseq : mrun headerIsolationPat prev (c :: rest) =
          (mrun (.grp 1 (.cls (fun x => !(x == '\n')) 1 (some 1) true)) prev
            (c :: rest)).flatMap
            (fun r1 =>
              (mrun (.grp 2 (.cls isUpperAZ 5 none true)) (lastCh r1.2.1 prev)
                r1.2.2).map
                (fun r2 => (r1.1 ++ r2.1, r1.2.1 ++ r2.2.1, r2.2.2))) := rfl
      rw [eseq, hm1g]
      simp only [List.flatMap_cons, List.flatMap_nil, List.append_nil]
      rw [show lastCh [c] prev = some c from rfl]
      have ecls : mrun (.cls isUpperAZ 5 none true) (some c) rest =
          (if 5 ≤ clsCap isUpperAZ none rest then
            (countdown (clsCap isUpperAZ none rest)
              (clsCap isUpperAZ none rest + 1 - 5)).map
              (fun k => (([] : Caps), rest.take k, rest.drop k))
          else []) := rfl
      by_cases h5 : 5 ≤ (rest.takeWhile isUpperAZ).length
      · have hcd : countdown (rest.takeWhile isUpperAZ).length
            ((rest.takeWhile isUpperAZ).length + 1 - 5) =
            (rest.takeWhile isUpperAZ).length ::
              countdown ((rest.takeWhile isUpperAZ).length - 1)
                ((rest.takeWhile isUpperAZ).length - 5) := by
          have h : (rest.takeWhile isUpperAZ).length + 1 - 5 =
              ((rest.takeWhile isUpperAZ).length - 5) + 1 := by omega
          rw [h, countdown]
        have hm2 : (mrun (.cls isUpperAZ 5 none true) (some c) rest).head? =
            some ([], rest.takeWhile isUpperAZ,
              rest.drop (rest.takeWhile isUpperAZ).length) := by
          rw [ecls,
            show clsCap isUpperAZ none rest = (rest.takeWhile isUpperAZ).length
              from rfl,
            if_pos h5, hcd, List.map_cons, List.head?_cons,
            take_length_takeWhile]
        have hm2g : (mrun (.grp 2 (.cls isUpperAZ 5 none true)) (some c)
            rest).head? =
            some ([(2, rest.takeWhile isUpperAZ)], rest.takeWhile isUpperAZ,
              rest.drop (rest.takeWhile isUpperAZ).length) := by
          have e : mrun (.grp 2 (.cls isUpperAZ 5 none true)) (some c) rest =
              (mrun (.cls isUpperAZ 5 none true) (some c) rest).map
                (fun r => ((2, r.2.1) :: r.1, r.2.1, r.2.2)) := rfl
          rw [e, List.head?_map, hm2]
          rfl
        rw [List.head?_map, hm2g, if_pos ⟨hc, h5⟩]
        rfl
      · have hm2 : mrun (.cls isUpperAZ 5 none true) (some c) rest = [] := by
          rw [ecls,
            show clsCap isUpperAZ none rest = (rest.takeWhile isUpperAZ).length
              from rfl,
            if_neg h5]
        have hm2g : mrun (.grp 2 (.cls isUpperAZ 5 none true)) (some c) rest =
            [] := by
          have e : mrun (.grp 2 (.cls isUpperAZ 5 none true)) (some c) rest =
              (mrun (.cls isUpperAZ 5 none true) (some c) rest).map
                (fun r => ((2, r.2.1) :: r.1, r.2.1, r.2.2)) := rfl
          rw [e, hm2]
          rfl
        rw [hm2g, if_neg (fun hand => h5 hand.2)]
        rfl

theorem tryMatch_headerIso (text : List Char) (i : Nat) :
    tryMatch headerIsolationPat text i =
      match text.drop i with
      | [] => none
      | c :: rest =>
        if ¬ c = '\n' ∧ 5 ≤ (rest.takeWhile isUpperAZ).length then
          some ([(1, [c]), (2, rest.takeWhile isUpperAZ)],
                i + ((rest.takeWhile isUpperAZ).length + 1))
        else none := by
  rw [tryMatch, mrun_headerIso_head]
  cases hdrop : text.drop i with
  | nil => rfl
  | cons c rest =>
    show (match
        (if ¬ c = '\n' ∧ 5 ≤ (rest.takeWhile isUpperAZ).length then
          some ([(1, [c]), (2, rest.takeWhile isUpperAZ)],
                c :: rest.takeWhile isUpperAZ,
                rest.drop (rest.takeWhile isUpperAZ).length)
        else none) with
      | some r => some (r.1, i + r.2.1.length)
      | none => none) =
      if ¬ c = '\n' ∧ 5 ≤ (rest.takeWhile isUpperAZ).length then
        some ([(1, [c]), (2, rest.takeWhile isUpperAZ)],
              i + ((rest.takeWhile isUpperAZ).length + 1))
      else none
    by_cases htrig : ¬ c = '\n' ∧ 5 ≤ (rest.takeWhile isUpperAZ).length
    · rw [if_pos htrig, if_pos htrig]
      simp [List.length_cons]
    · rw [if_neg htrig, if_neg htrig]

theorem reSubAux_headerIso (text : List Char) :
    ∀ (fuel i : Nat), text.length - i ≤ fuel →
      reSubAux headerIsolationPat [.inl 1, .inr ['\n', '\n'], .inl 2] text i
          fuel =
        headerIsoSpec (text.drop i) := by
  intro fuel
  induction fuel with
  | zero =>
    intro i h
    have hnil : text.drop i = [] := List.drop_eq_nil_iff.mpr (by omega)
    rw [hnil, reSubAux, headerIsoSpec]
  | succ f ih =>
    intro i h
    cases hdrop : text.drop i with
    | nil =>
      rw [reSubAux, if_pos (List.drop_eq_nil_iff.mp hdrop), headerIsoSpec]
    | cons c rest =>
      have hlen : (text.drop i).length = text.length - i := List.length_drop i text
      rw [hdrop] at hlen
      have hi : i < text.length := by
        simp only [List.length_cons] at hlen
        omega
      have hget : text.get? i = some c := by
        have h0 : (text.drop i).get? 0 = some c := by rw [hdrop]; rfl
        rw [List.get?_drop] at h0
        simpa using h0
      have htm : tryMatch headerIsolationPat text i =
          (if ¬ c = '\n' ∧ 5 ≤ (rest.takeWhile isUpperAZ).length then
            some ([(1, [c]), (2, rest.takeWhile isUpperAZ)],
                  i + ((rest.takeWhile isUpperAZ).length + 1))
          else none) := by
        rw [tryMatch_headerIso, hdrop]
      rw [reSubAux, if_neg (by omega), htm]
      by_cases htrig : ¬ c = '\n' ∧ 5 ≤ (rest.takeWhile isUpperAZ).length
      · rw [if_pos htrig]
        show (if i < i + ((rest.takeWhile isUpperAZ).length + 1) then
            applyTmpl [.inl 1, .inr ['\n', '\n'], .inl 2]
              [(1, [c]), (2, rest.takeWhile isUpperAZ)] ++
              reSubAux headerIsolationPat [.inl 1, .inr ['\n', '\n'], .inl 2]
                text (i + ((rest.takeWhile isUpperAZ).length + 1)) f
          else _) = _
        rw [if_pos (by omega)]
        have happ : applyTmpl [.inl 1, .inr ['\n', '\n'], .inl 2]
            [(1, [c]), (2, rest.takeWhile isUpperAZ)] =
            c :: '\n' :: '\n' :: rest.takeWhile isUpperAZ := by
          simp [applyTmpl, getCap, List.find?]
        rw [happ, ih (i + ((rest.takeWhile isUpperAZ).length + 1)) (by omega)]
        have hdd : text.drop (i + ((rest.takeWhile isUpperAZ).length + 1)) =
            rest.drop (rest.takeWhile isUpperAZ).length := by
          rw [← List.drop_drop, hdrop, List.drop_succ_cons]
        rw [hdd]
        conv_rhs => rw [headerIsoSpec]
        rw [if_pos htrig]
      · rw [if_neg htrig]
        show ((text.get? i).elim [] fun x => [x]) ++
            reSubAux headerIsolationPat [.inl 1, .inr ['\n', '\n'], .inl 2]
              text (i + 1) f = _
        rw [hget, ih (i + 1) (by omega)]
        have hdd : text.drop (i + 1) = rest := by
          have h1 : (text.drop i).drop 1 = text.drop (i + 1) :=
            List.drop_drop 1 i text
          rw [← h1, hdrop]
          rfl
        rw [hdd]
        conv_rhs => rw [headerIsoSpec]
        rw [if_neg htrig]
        rfl

/-- C8 amended: the header-isolation step behaves on **every** text exactly
like the scanner that inserts a blank line before each run of ≥5
consecutive upper-case letters immediately following any non-**newline**
character (including spaces and tabs, which are whitespace), and inserts
nothing anywhere else — in particular never before a run that starts the
text or follows a newline. -/
theorem claim_c8_header_isolation (text : String) :
    header_isolation_step text = String.mk (headerIsoSpec text.data) := by
  rw [header_isolation_step, reSub]
  exact congrArg String.mk
    (by rw [reSubAux_headerIso text.data (text.data.length + 1) 0 (by omega),
          List.drop_zero])
